import Mathlib

/-!
# p2d: Push 2 display driver

A shallow embedding of `p2d/bitmap.hpp`, `p2d/display.hpp`, `p2d/driver.hpp`
and `src/driver.cpp`, followed by theorems about it.

Conventions of the embedding.

* Machine integers are natural numbers; a store into a `uint8_t` or a
  `uint16_t` is taken modulo `256` or `65536`.
* A `std::array` or a C array is a list; every element access is bounds
  checked and an access outside the array is undefined behaviour.
* Undefined behaviour and aborts (null dereference, out-of-bounds access, a
  failed `assert`, `std::terminate`) are the result `none`.
* The pointer of a `std::unique_ptr` or a raw pointer is an `Option`,
  `none` being `nullptr`.
* libusb is the environment. The outcome of each call is read from an
  explicit description of the environment (`Usb`, `UsbBus`), and what has been
  handed to the device is recorded in `World`.
* The object representation of a `uint16_t` pixel is little endian (the low
  byte first), as on the hosts the driver is built for.
-/

namespace p2d

/-! ## `p2d/result.hpp` and `p2d/macro.hpp` -/

/-- Modelled from the spec: `p2d/result.hpp` is not among the sources. A
`Result` is either `Result::NoError` or a failure built from a message with
`Result(message)`; `Failed()` tells them apart and `GetDescription()` gives
the message back. -/
inductive Result where
  | NoError : Result
  | Error (description : String) : Result
deriving DecidableEq

/-- Modelled from the spec: `Result::Failed()` of the absent `p2d/result.hpp`. -/
def Result.Failed : Result → Bool
  | .NoError => false
  | .Error _ => true

/-- Modelled from the spec: `Result::GetDescription()` of the absent
`p2d/result.hpp`. -/
def Result.GetDescription : Result → String
  | .NoError => ""
  | .Error m => m

/-! ## `p2d/bitmap.hpp` -/

/-- `Bitmap::kWidth`. -/
def Bitmap.kWidth : Nat := 960

/-- `Bitmap::kHeight`. -/
def Bitmap.kHeight : Nat := 160

/-- `Bitmap::kBufferSize`. -/
def Bitmap.kBufferSize : Nat := Bitmap.kWidth * Bitmap.kHeight

/-- `class Bitmap`: the only data member is `buffer_`, an array of
`kBufferSize` pixels of type `uint16_t`. -/
structure Bitmap where
  buffer_ : List Nat

/-- The array `buffer_` has its declared size `kBufferSize`. -/
def Bitmap.valid (g : Bitmap) : Prop := g.buffer_.length = Bitmap.kBufferSize

/-- `Bitmap::Bitmap()`: `buffer_.fill(0)`. -/
def Bitmap.init : Bitmap := ⟨List.replicate Bitmap.kBufferSize 0⟩

/-- `Bitmap::Width()`. -/
def Bitmap.Width (_g : Bitmap) : Nat := Bitmap.kWidth

/-- `Bitmap::Height()`. -/
def Bitmap.Height (_g : Bitmap) : Nat := Bitmap.kHeight

/-- `Bitmap::Data()`. -/
def Bitmap.Data (g : Bitmap) : List Nat := g.buffer_

/-- `Bitmap::PackPixel`: `pixel` is a `uint16_t`, so each assignment to it is
taken modulo `65536`. The arguments are `unsigned char`. -/
def Bitmap.PackPixel (r g b : Nat) : Nat :=
  let pixel := ((b &&& 0xF8) >>> 3) % 65536
  let pixel := (pixel <<< 6) % 65536
  let pixel := (pixel + ((g &&& 0xFC) >>> 2)) % 65536
  let pixel := (pixel <<< 5) % 65536
  let pixel := (pixel + ((r &&& 0xF8) >>> 3)) % 65536
  pixel

/-! ## Element-wise copies -/

/-- The forward copy loop shared by `std::copy_n` and `std::memcpy`: for
`k = 0, ..., n - 1` in this order, `dst[d + k] = read (s + k)`. A read that
`read` does not grant, or a write outside `dst`, is undefined behaviour. -/
def copyLoop (read : Nat → Option Nat) : Nat → List Nat → Nat → Nat → Option (List Nat)
  | _, dst, _, 0 => some dst
  | s, dst, d, n + 1 =>
    match read s with
    | none => none
    | some v => if d < dst.length then copyLoop read (s + 1) (dst.set d v) (d + 1) n else none

/-- `std::copy_n(src.begin() + first, count, dst.begin() + result)`. -/
def copy_n (src : List Nat) (first count : Nat) (dst : List Nat) (result : Nat) :
    Option (List Nat) :=
  copyLoop (fun i => src[i]?) first dst result count

/-- `std::memcpy(dst + d, src + s, n)` where `src` is a byte view. -/
def memcpy (dst : List Nat) (d : Nat) (src : Nat → Option Nat) (s n : Nat) :
    Option (List Nat) :=
  copyLoop src s dst d n

/-! ## `p2d/display.hpp` -/

/-- `Display::kDataSourceWidth`. -/
def Display.kDataSourceWidth : Nat := 1024

/-- `Display::kDataSourceHeight`. -/
def Display.kDataSourceHeight : Nat := Bitmap.kHeight

/-- `class Display`: the only data member is `source_`, an array of
`kDataSourceWidth * kDataSourceHeight` pixels. -/
structure Display where
  source_ : List Nat

/-- The array `source_` has its declared size. -/
def Display.valid (d : Display) : Prop :=
  d.source_.length = Display.kDataSourceWidth * Display.kDataSourceHeight

/-- `Display::Display()`: `source_.fill(0)`. -/
def Display.init : Display :=
  ⟨List.replicate (Display.kDataSourceWidth * Display.kDataSourceHeight) 0⟩

/-- `Display::Data()`. -/
def Display.Data (d : Display) : List Nat := d.source_

/-- The loop of `Display::Flip`, entered with the loop variable equal to
`line`. The loop variable is a `uint8_t`, so `line++` is taken modulo 256. -/
def Display.FlipLoop (g : Bitmap) (line : Nat) (source : List Nat) : Option (List Nat) :=
  if line < Display.kDataSourceHeight then
    match copy_n g.Data (line * g.Width) g.Width source (line * Display.kDataSourceWidth) with
    | none => none
    | some s => Display.FlipLoop g ((line + 1) % 256) s
  else some source
termination_by Display.kDataSourceHeight - line
decreasing_by
  simp only [Display.kDataSourceHeight, Bitmap.kHeight] at *
  omega

/-- `Display::Flip`. A failed `assert` aborts. -/
def Display.Flip (d : Display) (g : Bitmap) : Option (Result × Display) :=
  if g.Height ≠ Display.kDataSourceHeight then none
  else
    match Display.FlipLoop g 0 d.source_ with
    | none => none
    | some s => some (Result.NoError, ⟨s⟩)

/-- The byte at offset `j` of `reinterpret_cast<const char*>(Data())`. -/
def Display.byteAt (d : Display) (j : Nat) : Option Nat :=
  (d.Data[j / 2]?).map (fun p => if j % 2 = 0 then p % 256 else p / 256 % 256)

/-! ## libusb, the environment -/

/-- `LIBUSB_CLASS_PER_INTERFACE` of `libusb.h`. -/
def LIBUSB_CLASS_PER_INTERFACE : Nat := 0

/-- `LIBUSB_TRANSFER_FREE_TRANSFER` of `libusb.h`. -/
def LIBUSB_TRANSFER_FREE_TRANSFER : Nat := 4

/-- `LIBUSB_TRANSFER_COMPLETED` of `libusb.h`. -/
def LIBUSB_TRANSFER_COMPLETED : Nat := 0

/-- `LIBUSB_TRANSFER_ERROR` of `libusb.h`. -/
def LIBUSB_TRANSFER_ERROR : Nat := 1

/-- `LIBUSB_TRANSFER_TIMED_OUT` of `libusb.h`. -/
def LIBUSB_TRANSFER_TIMED_OUT : Nat := 2

/-- `LIBUSB_TRANSFER_CANCELLED` of `libusb.h`. -/
def LIBUSB_TRANSFER_CANCELLED : Nat := 3

/-- `LIBUSB_TRANSFER_STALL` of `libusb.h`. -/
def LIBUSB_TRANSFER_STALL : Nat := 4

/-- `LIBUSB_TRANSFER_NO_DEVICE` of `libusb.h`. -/
def LIBUSB_TRANSFER_NO_DEVICE : Nat := 5

/-- `LIBUSB_TRANSFER_OVERFLOW` of `libusb.h`. -/
def LIBUSB_TRANSFER_OVERFLOW : Nat := 6

/-- The fields of `struct libusb_device_descriptor` that the driver reads. -/
structure libusb_device_descriptor where
  bDeviceClass : Nat
  idVendor : Nat
  idProduct : Nat
deriving DecidableEq

/-- A device of the list returned by `libusb_get_device_list`, described by
what the libusb calls made on it answer: the return code of
`libusb_get_device_descriptor` and the descriptor it fills in, the return code
of `libusb_open` and the handle it yields, and the return code of
`libusb_claim_interface(handle, 0)`. A return code below zero is an error. -/
structure libusb_device where
  descriptor_rc : Int
  descriptor : libusb_device_descriptor
  open_rc : Int
  handle : Nat
  claim_rc : Int
deriving DecidableEq

/-- The USB bus as seen by device discovery: the return code of `libusb_init`
and the device list of `libusb_get_device_list` (`none` when the count it
returns is negative). -/
structure UsbBus where
  init_rc : Int
  device_list : Option (List libusb_device)

/-- Where the `buffer` pointer of a transfer points: the static `frameHeader`
array of `_TransferStart`, or `sendBuffers_ + offset`. -/
inductive BufferPtr where
  | frameHeader : BufferPtr
  | sendBuffers (offset : Nat) : BufferPtr
deriving DecidableEq

/-- The fields of `struct libusb_transfer` that the driver and
`libusb_fill_bulk_transfer` touch. The callback is always
`Driver::_OnTransferFinished` and `user_data` the driver itself. -/
structure libusb_transfer where
  dev_handle : Option Nat
  flags : Nat
  endpoint : Nat
  timeout : Nat
  status : Nat
  length : Nat
  actual_length : Nat
  buffer : BufferPtr
deriving DecidableEq

/-- The transfer calls of libusb: whether the `n`-th call of
`libusb_alloc_transfer` returns a transfer, and the return code of the `n`-th
call of `libusb_submit_transfer`. -/
structure Usb where
  alloc : Nat → Bool
  submit : Nat → Int

/-- Every allocation yields a transfer and every submission is accepted. -/
def Usb.reliable (usb : Usb) : Prop :=
  (∀ n, usb.alloc n = true) ∧ (∀ n, 0 ≤ usb.submit n)

/-- One accepted bulk submission: the endpoint and the bytes of the buffer. -/
structure Submission where
  endpoint : Nat
  data : List Nat
deriving DecidableEq

/-- What the driver has done to its environment: the number of
`libusb_alloc_transfer` and of `libusb_submit_transfer` calls made, the
submissions accepted so far in order, and the lines written by `printf`. -/
structure World where
  allocs : Nat
  submits : Nat
  wire : List Submission
  out : List String

/-- The static array `frameHeader` of `_TransferStart`. -/
def frameHeader : List Nat :=
  [0xFF, 0xCC, 0xAA, 0x88, 0x00, 0x00, 0x00, 0x00, 0x00, 0x00, 0x00, 0x00, 0x00, 0x00, 0x00, 0x00]

/-- The `length` bytes that a transfer buffer points to; reading outside the
array it points into is undefined behaviour. -/
def readBuffer (sendBuffers : List Nat) (buffer : BufferPtr) (length : Nat) : Option (List Nat) :=
  match buffer with
  | .frameHeader => if length ≤ frameHeader.length then some (frameHeader.take length) else none
  | .sendBuffers offset =>
    if offset + length ≤ sendBuffers.length then some ((sendBuffers.drop offset).take length)
    else none

/-- `libusb_submit_transfer(transfer)`: the return code, and the world in which
an accepted transfer has been put on the wire. -/
def libusb_submit_transfer (usb : Usb) (w : World) (sendBuffers : List Nat)
    (transfer : Option libusb_transfer) : Option (Int × World) :=
  match transfer with
  | none => none
  | some t =>
    match readBuffer sendBuffers t.buffer t.length with
    | none => none
    | some bytes =>
      let rc := usb.submit w.submits
      if rc < 0 then some (rc, { w with submits := w.submits + 1 })
      else some (rc, { w with submits := w.submits + 1, wire := w.wire ++ [⟨t.endpoint, bytes⟩] })

/-! ## `p2d/driver.hpp` and `src/driver.cpp` -/

/-- `Driver::kLineSize`. -/
def Driver.kLineSize : Nat := 2048

/-- `Driver::kLineCountPerSendBuffer`. -/
def Driver.kLineCountPerSendBuffer : Nat := 8

/-- `Driver::kSendBufferCount`. -/
def Driver.kSendBufferCount : Nat := 3

/-- `Driver::kSendBufferSize`. -/
def Driver.kSendBufferSize : Nat := Driver.kLineCountPerSendBuffer * Driver.kLineSize

/-- `class Driver`, its data members. `transferThread_` is whether the thread
object is joinable, that is whether the worker thread has been started. -/
structure Driver where
  source_ : Option Display
  handle_ : Option Nat
  frameHeaderTransfer_ : Option libusb_transfer
  transferThread_ : Bool
  currentLine_ : Nat
  terminate_ : Bool
  sendBuffers_ : List Nat

/-- The array `sendBuffers_` has its declared size. -/
def Driver.valid (drv : Driver) : Prop :=
  drv.sendBuffers_.length = Driver.kSendBufferCount * Driver.kSendBufferSize

/-- `Driver::Driver()`: `source_` and `handle_` are null and the thread object
is empty; the other members are not written by the constructor, their
indeterminate values are the arguments. -/
def Driver.init (frameHeaderTransfer : Option libusb_transfer) (currentLine : Nat)
    (terminate : Bool) (sendBuffers : List Nat) : Driver :=
  ⟨none, none, frameHeaderTransfer, false, currentLine, terminate, sendBuffers⟩

/-- Modelled from the spec: `RETURN_IF_FAILED` and `RETURN_IF_FAILED_MESSAGE`
of the absent `p2d/macro.hpp` return from the enclosing function when the
result has failed, handing the failure to the caller. The value is what the
enclosing function returns early, if it does. -/
def RETURN_IF_FAILED (result : Result) : Option Result :=
  if result.Failed then some result else none

/-- The body of the scanning loop of `_FindPushDisplayDeviceHandle` run over
the remaining devices, with the current content of `ErrorMsg`: the value of
`device_handle` when the loop is left, and `ErrorMsg`. -/
def Driver.scanDevices : List libusb_device → String → Option Nat × String
  | [], ErrorMsg => (none, ErrorMsg)
  | device :: rest, ErrorMsg =>
    if device.descriptor_rc < 0 then
      Driver.scanDevices rest
        ("could not get usb device descriptor, error: " ++ toString device.descriptor_rc)
    else if device.descriptor.bDeviceClass = LIBUSB_CLASS_PER_INTERFACE
        ∧ device.descriptor.idVendor = 0x2982 ∧ device.descriptor.idProduct = 0x1967 then
      if device.open_rc < 0 then
        Driver.scanDevices rest ("could not open device, error: " ++ toString device.open_rc)
      else if device.claim_rc < 0 then
        Driver.scanDevices rest
          ("could not claim device with interface 0, error: " ++ toString device.claim_rc)
      else (some device.handle, ErrorMsg)
    else Driver.scanDevices rest ErrorMsg

/-- `Driver::_FindPushDisplayDeviceHandle(pHandle)`: the result and the value
of `*pHandle` afterwards, `handle` being its value before the call. -/
def Driver._FindPushDisplayDeviceHandle (bus : UsbBus) (handle : Option Nat) :
    Result × Option Nat :=
  if bus.init_rc < 0 then (Result.Error "Failed to initialize usblib", handle)
  else
    match bus.device_list with
    | none => (Result.Error "could not get usb device list", handle)
    | some devices =>
      match Driver.scanDevices devices "display device not found\n" with
      | (some device_handle, _) => (Result.NoError, some device_handle)
      | (none, ErrorMsg) => (Result.Error ErrorMsg, none)

/-- `Driver::Open(source)`: the result, the driver and the caller's pointer
`source` afterwards. Assigning to a thread object that is joinable calls
`std::terminate`. -/
def Driver.Open (bus : UsbBus) (drv : Driver) (source : Option Display) :
    Option (Result × Driver × Option Display) :=
  let caller := drv.source_
  let drv := { drv with source_ := source }
  let (result, handle) := Driver._FindPushDisplayDeviceHandle bus drv.handle_
  let drv := { drv with handle_ := handle }
  match RETURN_IF_FAILED result with
  | some failure => some (failure, drv, caller)
  | none =>
    if drv.handle_ = none then none
    else
      let drv := { drv with terminate_ := false }
      if drv.transferThread_ then none
      else some (Result.NoError, { drv with transferThread_ := true }, caller)

/-- `Driver::Swap(source)`: the driver and the caller's pointer afterwards. -/
def Driver.Swap (drv : Driver) (source : Option Display) : Driver × Option Display :=
  ({ drv with source_ := source }, drv.source_)

/-- `Driver::_AllocateAndPrepareTransferChunk`: the transfer, null when
`libusb_alloc_transfer` fails, and the world afterwards. -/
def Driver._AllocateAndPrepareTransferChunk (usb : Usb) (w : World) (handle : Option Nat)
    (buffer : BufferPtr) (bufferSize : Nat) (flags : Nat) : Option libusb_transfer × World :=
  let w1 := { w with allocs := w.allocs + 1 }
  if usb.alloc w.allocs then
    (some ⟨handle, flags, 0x01, 1000, 0, bufferSize, 0, buffer⟩, w1)
  else (none, w1)

/-- `Driver::_TransferNextSlice(transfer)`. -/
def Driver._TransferNextSlice (usb : Usb) (drv : Driver) (w : World)
    (transfer : Option libusb_transfer) : Option (Result × Driver × World) :=
  let header :=
    if drv.currentLine_ = 0 then
      match libusb_submit_transfer usb w drv.sendBuffers_ drv.frameHeaderTransfer_ with
      | none => none
      | some (rc, w1) => some (decide (rc < 0), w1)
    else some (false, w)
  match header with
  | none => none
  | some (true, w1) => some (Result.Error "could not submit frame header transfer", drv, w1)
  | some (false, w1) =>
    match transfer, drv.source_ with
    | some t, some source =>
      match t.buffer with
      | .frameHeader => none
      | .sendBuffers dst =>
        match memcpy drv.sendBuffers_ dst source.byteAt (Driver.kLineSize * drv.currentLine_)
            Driver.kSendBufferSize with
        | none => none
        | some sendBuffers =>
          let drv := { drv with sendBuffers_ := sendBuffers }
          match libusb_submit_transfer usb w1 drv.sendBuffers_ (some t) with
          | none => none
          | some (rc, w2) =>
            if rc < 0 then some (Result.Error "could not submit display data transfer", drv, w2)
            else
              let currentLine := (drv.currentLine_ + Driver.kLineCountPerSendBuffer) % 256
              let currentLine := if currentLine ≥ 160 then 0 else currentLine
              some (Result.NoError, { drv with currentLine_ := currentLine }, w2)
    | _, _ => none

/-- The loop of `_TransferStart`, entered with the loop variable equal to `i`. -/
def Driver._TransferStartLoop (usb : Usb) (i : Nat) (drv : Driver) (w : World) :
    Option (Result × Driver × World) :=
  if i < Driver.kSendBufferCount then
    let buffer := BufferPtr.sendBuffers (i * Driver.kSendBufferSize)
    let (transfer, w1) := Driver._AllocateAndPrepareTransferChunk usb w drv.handle_ buffer
      Driver.kSendBufferSize LIBUSB_TRANSFER_FREE_TRANSFER
    match Driver._TransferNextSlice usb drv w1 transfer with
    | none => none
    | some (result, drv1, w2) =>
      match RETURN_IF_FAILED result with
      | some failure => some (failure, drv1, w2)
      | none => Driver._TransferStartLoop usb (i + 1) drv1 w2
  else some (Result.NoError, drv, w)
termination_by Driver.kSendBufferCount - i

/-- `Driver::_TransferStart()`. -/
def Driver._TransferStart (usb : Usb) (drv : Driver) (w : World) :
    Option (Result × Driver × World) :=
  let drv := { drv with currentLine_ := 0 }
  let (header, w1) := Driver._AllocateAndPrepareTransferChunk usb w drv.handle_
    BufferPtr.frameHeader frameHeader.length 0
  let drv := { drv with frameHeaderTransfer_ := header }
  Driver._TransferStartLoop usb 0 drv w1

/-- `Driver::_TransferFinished(transfer)`: it only prints. -/
def Driver._TransferFinished (drv : Driver) (w : World) (transfer : libusb_transfer) :
    Driver × World :=
  if transfer.status ≠ LIBUSB_TRANSFER_COMPLETED then
    let line :=
      if transfer.status = LIBUSB_TRANSFER_ERROR then "transfer failed\n"
      else if transfer.status = LIBUSB_TRANSFER_TIMED_OUT then "transfer timed out\n"
      else if transfer.status = LIBUSB_TRANSFER_CANCELLED then "transfer was cancelled\n"
      else if transfer.status = LIBUSB_TRANSFER_STALL then
        "endpoint stalled/control request not supported\n"
      else if transfer.status = LIBUSB_TRANSFER_NO_DEVICE then "device was disconnected\n"
      else if transfer.status = LIBUSB_TRANSFER_OVERFLOW then
        "device sent more data than requested\n"
      else "snd transfer failed with status: " ++ toString transfer.status ++ "\n"
    (drv, { w with out := w.out ++ [line] })
  else if transfer.length ≠ transfer.actual_length then
    (drv, { w with out := w.out ++ ["only transferred " ++ toString transfer.actual_length
      ++ " of " ++ toString transfer.length ++ " bytes\n"] })
  else (drv, w)

/-- `Driver::_OnTransferFinished(transfer)`: `user_data` is the driver. -/
def Driver._OnTransferFinished (drv : Driver) (w : World) (transfer : libusb_transfer) :
    Driver × World :=
  Driver._TransferFinished drv w transfer

/-- `libusb_handle_events_timeout_completed`: libusb runs the callback of each
transfer that has completed, in order. -/
def libusb_handle_events (drv : Driver) (w : World) :
    List libusb_transfer → Driver × World
  | [] => (drv, w)
  | t :: rest =>
    let (drv1, w1) := Driver._OnTransferFinished drv w t
    libusb_handle_events drv1 w1 rest

/-- One turn of the loop of `Driver::_TransferThread`, entered with the loop
condition true: the driver and the world afterwards, and whether the loop goes
on (`false` after `break`). `completed` are the transfers whose completion
libusb reports in this turn and `status` is what the event call returns. -/
def Driver._TransferThreadTurn (usb : Usb) (drv : Driver) (w : World)
    (completed : List libusb_transfer) (status : Int) : Option (Bool × Driver × World) :=
  match Driver._TransferStart usb drv w with
  | none => none
  | some (result, drv1, w1) =>
    if result.Failed then
      some (false, drv1, { w1 with out := w1.out ++ ["Failed to initiate send"] })
    else
      let (drv2, w2) := libusb_handle_events drv1 w1 completed
      let w3 :=
        if status < 0 then
          { w2 with out := w2.out ++ ["handle_events_timeout: failed with: " ++ toString status] }
        else w2
      some (true, drv2, w3)

/-- `Driver::_TransferThread()` run for at most `turns` turns of its loop. The
flag `terminate_` is only written by other threads; here it keeps the value it
has in `drv`. `events n` is what libusb reports in turn `n`. -/
def Driver._TransferThread (usb : Usb) (events : Nat → List libusb_transfer × Int) :
    Nat → Nat → Driver → World → Option (Driver × World)
  | 0, _, drv, w => some (drv, w)
  | turns + 1, n, drv, w =>
    if drv.terminate_ then some (drv, w)
    else
      match Driver._TransferThreadTurn usb drv w (events n).1 (events n).2 with
      | none => none
      | some (false, drv1, w1) => some (drv1, w1)
      | some (true, drv1, w1) => Driver._TransferThread usb events turns (n + 1) drv1 w1

/-! ## Vocabulary of the statements -/

/-- The object representation of an array of `uint16_t` pixels: two bytes per
pixel, the low byte first. -/
def pixelBytes : List Nat → List Nat
  | [] => []
  | p :: ps => p % 256 :: p / 256 % 256 :: pixelBytes ps

/-- The bytes of the `count` padded lines of the staging buffer that start at
line `first`, that is of the pixels `1024 * first` up to
`1024 * (first + count) - 1`. -/
def Display.lineBytes (d : Display) (first count : Nat) : List Nat :=
  pixelBytes ((d.source_.drop (Display.kDataSourceWidth * first)).take
    (Display.kDataSourceWidth * count))

/-- The transfer `_TransferStart` prepares for the frame header. -/
def headerTransfer (handle : Option Nat) : libusb_transfer :=
  ⟨handle, 0, 0x01, 1000, 0, 16, 0, BufferPtr.frameHeader⟩

/-- The transfer `_TransferStart` prepares for slot `i`. -/
def slotTransfer (handle : Option Nat) (i : Nat) : libusb_transfer :=
  ⟨handle, LIBUSB_TRANSFER_FREE_TRANSFER, 0x01, 1000, 0, Driver.kSendBufferSize, 0,
    BufferPtr.sendBuffers (i * Driver.kSendBufferSize)⟩

/-- A transfer over one whole slot-sized region of `sendBuffers_`: its buffer
is `sendBuffers_ + offset`, its length `kSendBufferSize`, and the region lies
inside the array. -/
def libusb_transfer.isSlot (t : libusb_transfer) (offset : Nat) : Prop :=
  t.buffer = BufferPtr.sendBuffers offset ∧ t.length = Driver.kSendBufferSize ∧
    offset + Driver.kSendBufferSize ≤ Driver.kSendBufferCount * Driver.kSendBufferSize

/-- A transfer over the 16 bytes of the static `frameHeader` array. -/
def libusb_transfer.isHeader (t : libusb_transfer) : Prop :=
  t.buffer = BufferPtr.frameHeader ∧ t.length = 16

/-- The driver holds the staging buffer `source` and a prepared frame-header
transfer `header`, and its arrays have their declared sizes: the state in
which `_TransferNextSlice` is called. -/
def Driver.ready (drv : Driver) (source : Display) (header : libusb_transfer) : Prop :=
  drv.valid ∧ drv.source_ = some source ∧ source.valid ∧
    drv.frameHeaderTransfer_ = some header ∧ header.isHeader

/-- The submission of the frame header through `header`. -/
def headerSubmission (header : libusb_transfer) : Submission :=
  ⟨header.endpoint, frameHeader⟩

/-- The submission of the eight staging lines from `line` on through `t`. -/
def slotSubmission (t : libusb_transfer) (source : Display) (line : Nat) : Submission :=
  ⟨t.endpoint, source.lineBytes line Driver.kLineCountPerSendBuffer⟩

/-- The device has a readable descriptor that matches the Push 2 display:
vendor `0x2982`, product `0x1967` and the per-interface device class. -/
def libusb_device.isPush2 (dev : libusb_device) : Bool :=
  decide (0 ≤ dev.descriptor_rc) && decide (dev.descriptor.bDeviceClass = LIBUSB_CLASS_PER_INTERFACE)
    && decide (dev.descriptor.idVendor = 0x2982) && decide (dev.descriptor.idProduct = 0x1967)

/-- The device matches, can be opened and can have interface 0 claimed. -/
def libusb_device.qualifies (dev : libusb_device) : Bool :=
  dev.isPush2 && decide (0 ≤ dev.open_rc) && decide (0 ≤ dev.claim_rc)

/-- The error message recorded when a device is examined, if any: for an
unreadable descriptor, and for a matching device that cannot be opened or
whose interface 0 cannot be claimed. -/
def libusb_device.error (dev : libusb_device) : Option String :=
  if dev.descriptor_rc < 0 then
    some ("could not get usb device descriptor, error: " ++ toString dev.descriptor_rc)
  else if dev.isPush2 then
    if dev.open_rc < 0 then some ("could not open device, error: " ++ toString dev.open_rc)
    else if dev.claim_rc < 0 then
      some ("could not claim device with interface 0, error: " ++ toString dev.claim_rc)
    else none
  else none

/-- The last error message recorded over a device list, and the message set
before the scan when none was recorded. -/
def lastErrorMessage (devices : List libusb_device) : String :=
  ((devices.filterMap libusb_device.error).getLast?).getD "display device not found\n"

/-- Consecutive calls of `_TransferNextSlice`, one for each transfer of the
list in order, up to the first call that fails. -/
def Driver.nextSlices (usb : Usb) :
    List libusb_transfer → Driver → World → Option (Result × Driver × World)
  | [], drv, w => some (Result.NoError, drv, w)
  | t :: ts, drv, w =>
    match Driver._TransferNextSlice usb drv w (some t) with
    | none => none
    | some (result, drv1, w1) =>
      if result.Failed then some (result, drv1, w1) else Driver.nextSlices usb ts drv1 w1

/-- The submissions expected of consecutive slice-and-submit calls that
started at cursor 0, from call number `j` on: call `j` is entered with cursor
`8 * j % 160`, it submits the header first when that cursor is 0, and then
the eight staging lines at the cursor through its transfer. -/
def sliceWire (header : libusb_transfer) (source : Display) :
    Nat → List libusb_transfer → List Submission
  | _, [] => []
  | j, t :: ts =>
    (if 8 * j % 160 = 0 then [headerSubmission header] else [])
      ++ slotSubmission t source (8 * j % 160) :: sliceWire header source (j + 1) ts

/-- The cursor invariant: `0 <= currentLine_ < 160` and `currentLine_` is a
multiple of `kLineCountPerSendBuffer`. -/
def Driver.cursorOk (drv : Driver) : Prop :=
  drv.currentLine_ < 160 ∧ drv.currentLine_ % Driver.kLineCountPerSendBuffer = 0

/-! ## Concrete inputs -/

/-- A Push 2 display that can be opened and claimed; its handle is 7. -/
def push2Device : libusb_device := ⟨0, ⟨0, 0x2982, 0x1967⟩, 0, 7, 0⟩

/-- A device of another vendor. -/
def otherDevice : libusb_device := ⟨0, ⟨9, 0x1d6b, 2⟩, 0, 3, 0⟩

/-- A bus with one other device and then a Push 2 display. -/
def exampleBus : UsbBus := ⟨0, some [otherDevice, push2Device]⟩

/-- A transport on which every allocation and every submission succeeds. -/
def usbOk : Usb := ⟨fun _ => true, fun _ => 0⟩

/-- A freshly constructed driver, with zeroes for the members the constructor
does not write. -/
def freshDriver : Driver := Driver.init none 0 false (List.replicate 49152 0)

/-- The driver of `test/p2d_test.cpp` after a successful `Open`: it holds the
zero-filled staging buffer and the handle of `push2Device`, and its worker
thread has been started. -/
def openedDriver : Driver :=
  ⟨some Display.init, some 7, none, true, 0, false, List.replicate 49152 0⟩

/-- The driver `openedDriver` with the frame-header transfer prepared, as
`_TransferStart` leaves it, and the cursor at 0. -/
def readyDriver : Driver :=
  ⟨some Display.init, some 7, some (headerTransfer (some 7)), true, 0, false,
    List.replicate 49152 0⟩

/-- A transport on which every allocation succeeds and the submission
number 2 (the second slot of the first `_TransferStart`) is rejected. -/
def usbFlaky : Usb := ⟨fun _ => true, fun n => if n = 2 then -1 else 0⟩

/-- The world before anything was allocated, submitted or printed. -/
def world0 : World := ⟨0, 0, [], []⟩

/-- The four transfers of one `_TransferStart` of `openedDriver`, each
reported as completed with all of its bytes transferred. -/
def completedOk : List libusb_transfer :=
  [{ headerTransfer (some 7) with status := LIBUSB_TRANSFER_COMPLETED, actual_length := 16 },
   { slotTransfer (some 7) 0 with status := LIBUSB_TRANSFER_COMPLETED, actual_length := 16384 },
   { slotTransfer (some 7) 1 with status := LIBUSB_TRANSFER_COMPLETED, actual_length := 16384 },
   { slotTransfer (some 7) 2 with status := LIBUSB_TRANSFER_COMPLETED, actual_length := 16384 }]

/-! ## The copy loop -/

/-- A copy loop whose reads are granted and whose writes fall inside `dst`
returns a list of the same length that holds the values read at the
destination range and the old content elsewhere. -/
theorem copyLoop_spec (read : Nat → Option Nat) (n : Nat) :
    ∀ (s : Nat) (dst : List Nat) (d : Nat),
      (∀ k, k < n → (read (s + k)).isSome = true) → d + n ≤ dst.length →
      ∃ out, copyLoop read s dst d n = some out ∧ out.length = dst.length ∧
        ∀ i, out[i]? = if d ≤ i ∧ i < d + n then read (s + (i - d)) else dst[i]? := by
  induction n with
  | zero =>
    intro s dst d _ _
    refine ⟨dst, rfl, rfl, fun i => ?_⟩
    have : ¬ (d ≤ i ∧ i < d + 0) := by omega
    rw [if_neg this]
  | succ n ih =>
    intro s dst d hr hd
    have h0 := hr 0 (by omega)
    obtain ⟨v, hv⟩ := Option.isSome_iff_exists.mp h0
    rw [Nat.add_zero] at hv
    have hlt : d < dst.length := by omega
    obtain ⟨out, ho, hlen, hget⟩ := ih (s + 1) (dst.set d v) (d + 1)
      (fun k hk => by
        have := hr (k + 1) (by omega)
        rwa [show s + (k + 1) = s + 1 + k by omega] at this)
      (by rw [List.length_set]; omega)
    refine ⟨out, ?_, ?_, fun i => ?_⟩
    · simp only [copyLoop, hv, hlt, if_true]
      exact ho
    · rw [hlen, List.length_set]
    · rw [hget i, List.getElem?_set]
      by_cases h1 : d + 1 ≤ i ∧ i < d + 1 + n
      · have h2 : d ≤ i ∧ i < d + (n + 1) := by omega
        rw [if_pos h1, if_pos h2]
        congr 1
        omega
      · rw [if_neg h1]
        by_cases h3 : d = i
        · subst h3
          have h2 : d ≤ d ∧ d < d + (n + 1) := by omega
          rw [if_pos rfl, if_pos hlt, if_pos h2, Nat.sub_self, Nat.add_zero, hv]
        · have h2 : ¬ (d ≤ i ∧ i < d + (n + 1)) := by omega
          rw [if_neg h3, if_neg h2]

/-! ## `Display::Flip` -/

/-- The loop of `Flip` entered at `line` with `k` rows to go runs to its end
inside both arrays: the rows from `line` on hold the bitmap rows in their
first 960 columns and everything else is as before. -/
theorem FlipLoop_spec (g : Bitmap) (hg : g.valid) (k : Nat) :
    ∀ (line : Nat) (src : List Nat), line + k = 160 → src.length = 163840 →
      ∃ out, Display.FlipLoop g line src = some out ∧ out.length = 163840 ∧
        ∀ y x, x < 1024 →
          out[1024 * y + x]? =
            if line ≤ y ∧ y < 160 ∧ x < 960 then g.buffer_[960 * y + x]?
            else src[1024 * y + x]? := by
  have hglen : g.buffer_.length = 153600 := hg
  induction k with
  | zero =>
    intro line src hl hs
    refine ⟨src, ?_, hs, fun y x _ => ?_⟩
    · rw [Display.FlipLoop]
      simp only [Display.kDataSourceHeight, Bitmap.kHeight]
      rw [if_neg (by omega)]
    · rw [if_neg (by omega)]
  | succ k ih =>
    intro line src hl hs
    obtain ⟨s1, hc, hlen1, hget1⟩ := copyLoop_spec (fun i => g.buffer_[i]?) 960
      (line * 960) src (line * 1024)
      (fun j hj => by
        have hb : line * 960 + j < g.buffer_.length := by omega
        simp only [List.getElem?_eq_getElem hb, Option.isSome_some])
      (by omega)
    obtain ⟨out, ho, hlen, hget⟩ := ih (line + 1) s1 (by omega) (by omega)
    refine ⟨out, ?_, hlen, fun y x hx => ?_⟩
    · rw [Display.FlipLoop]
      simp only [Display.kDataSourceHeight, Bitmap.kHeight, Display.kDataSourceWidth,
        Bitmap.Width, Bitmap.kWidth, Bitmap.Data, copy_n]
      rw [if_pos (by omega), hc]
      simp only []
      rw [show (line + 1) % 256 = line + 1 by omega]
      exact ho
    · rw [hget y x hx, hget1]
      by_cases h1 : line + 1 ≤ y ∧ y < 160 ∧ x < 960
      · rw [if_pos h1, if_pos (by omega)]
      · rw [if_neg h1]
        by_cases h2 : line * 1024 ≤ 1024 * y + x ∧ 1024 * y + x < line * 1024 + 960
        · have hy : y = line := by omega
          subst hy
          rw [if_pos h2, if_pos (by omega)]
          congr 1
          omega
        · rw [if_neg h2, if_neg (by omega)]

/-! ## `Driver::_TransferNextSlice` -/

/-- Indexing the object representation of a pixel array. -/
theorem pixelBytes_getElem (l : List Nat) :
    ∀ j, (pixelBytes l)[j]? =
      (l[j / 2]?).map (fun p => if j % 2 = 0 then p % 256 else p / 256 % 256) := by
  induction l with
  | nil => intro j; simp [pixelBytes]
  | cons p ps ih =>
    intro j
    match j with
    | 0 => simp [pixelBytes]
    | 1 => simp [pixelBytes]
    | j + 2 =>
      have h1 : (j + 2) / 2 = j / 2 + 1 := by omega
      have h2 : (j + 2) % 2 = j % 2 := by omega
      simp only [pixelBytes, List.getElem?_cons_succ, h1, h2]
      exact ih j

/-- The slot-sized region at `off` of a send-buffer array that holds there
the bytes of the staging buffer from byte `2048 * c` on is the object
representation of the eight staging lines from `c` on. -/
theorem slot_payload (src : Display) (sb : List Nat) (off c : Nat)
    (hget : ∀ i, off ≤ i → i < off + 16384 → sb[i]? = src.byteAt (2048 * c + (i - off))) :
    (sb.drop off).take 16384 = src.lineBytes c 8 := by
  apply List.ext_getElem?
  intro j
  rw [List.getElem?_take, List.getElem?_drop]
  simp only [Display.lineBytes, Display.kDataSourceWidth, pixelBytes_getElem,
    List.getElem?_take, List.getElem?_drop]
  by_cases hj : j < 16384
  · rw [if_pos hj, hget (off + j) (by omega) (by omega), if_pos (by omega)]
    simp only [Display.byteAt, Display.Data]
    rw [show off + j - off = j by omega, show (2048 * c + j) / 2 = 1024 * c + j / 2 by omega,
      show (2048 * c + j) % 2 = j % 2 by omega]
  · rw [if_neg hj, if_neg (by omega)]
    rfl

/-- A submission of the prepared frame header that the transport accepts puts
the sixteen header bytes on the wire. -/
theorem submit_header (usb : Usb) (w : World) (sb : List Nat) (hdr : libusb_transfer)
    (hh : hdr.isHeader) (hs : 0 ≤ usb.submit w.submits) :
    libusb_submit_transfer usb w sb (some hdr) =
      some (usb.submit w.submits,
        { w with submits := w.submits + 1, wire := w.wire ++ [headerSubmission hdr] }) := by
  obtain ⟨hb, hl⟩ := hh
  have hnot : ¬ usb.submit w.submits < 0 := by omega
  simp [libusb_submit_transfer, readBuffer, hb, hl, frameHeader, headerSubmission, hnot]

/-- A submission of a slot transfer that the transport accepts puts the
content of its region on the wire. -/
theorem submit_slot (usb : Usb) (w : World) (sb : List Nat) (t : libusb_transfer) (off : Nat)
    (ht : t.isSlot off) (hlen : sb.length = 49152) (hs : 0 ≤ usb.submit w.submits) :
    libusb_submit_transfer usb w sb (some t) =
      some (usb.submit w.submits,
        { w with submits := w.submits + 1,
                 wire := w.wire ++ [⟨t.endpoint, (sb.drop off).take 16384⟩] }) := by
  obtain ⟨hb, hl, ho⟩ := ht
  simp only [Driver.kSendBufferSize, Driver.kLineCountPerSendBuffer, Driver.kLineSize,
    Driver.kSendBufferCount] at hl ho
  have hnot : ¬ usb.submit w.submits < 0 := by omega
  have hin : off + 16384 ≤ sb.length := by omega
  simp [libusb_submit_transfer, readBuffer, hb, hl, hnot, hin]

/-- A submission through a slot transfer over a full-size `sendBuffers_` is
defined, whatever the transport answers. -/
theorem submit_slot_some (usb : Usb) (w : World) (sb : List Nat) (t : libusb_transfer)
    (off : Nat) (ht : t.isSlot off) (hlen : sb.length = 49152) :
    ∃ rc w1, libusb_submit_transfer usb w sb (some t) = some (rc, w1) := by
  obtain ⟨hb, hl, ho⟩ := ht
  simp only [Driver.kSendBufferSize, Driver.kLineCountPerSendBuffer, Driver.kLineSize,
    Driver.kSendBufferCount] at hl ho
  have hin : off + 16384 ≤ sb.length := by omega
  simp only [libusb_submit_transfer, readBuffer, hb, hl, hin, if_true]
  split_ifs <;> exact ⟨_, _, rfl⟩

/-- One call of `_TransferNextSlice` on a ready driver whose cursor is a
multiple of 8 below 160, with a slot transfer, when the transport accepts what
is submitted: the call returns `NoError`, the slot region holds the bytes of
the staging buffer from byte `2048 * cursor` on and the rest of `sendBuffers_`
is as before, the wire gains the header (only when the cursor was 0) and then
the slot, and the cursor advances by 8 modulo 160. -/
theorem nextSlice_spec (usb : Usb) (drv : Driver) (w : World) (t : libusb_transfer) (off : Nat)
    (src : Display) (hdr : libusb_transfer) (hr : drv.ready src hdr) (ht : t.isSlot off)
    (hc8 : drv.currentLine_ % 8 = 0) (hc : drv.currentLine_ < 160)
    (hs : ∀ n, 0 ≤ usb.submit n) :
    ∃ sb, Driver._TransferNextSlice usb drv w (some t) =
        some (Result.NoError,
          { drv with sendBuffers_ := sb, currentLine_ := (drv.currentLine_ + 8) % 160 },
          { w with submits := w.submits + (if drv.currentLine_ = 0 then 2 else 1),
                   wire := w.wire ++ (if drv.currentLine_ = 0 then [headerSubmission hdr] else [])
                     ++ [slotSubmission t src drv.currentLine_] }) ∧
      sb.length = drv.sendBuffers_.length ∧
      ∀ i, sb[i]? = if off ≤ i ∧ i < off + 16384
        then src.byteAt (2048 * drv.currentLine_ + (i - off)) else drv.sendBuffers_[i]? := by
  obtain ⟨hv, hsrc, hsv, hfh, hh⟩ := hr
  have hv1 : drv.sendBuffers_.length = 49152 := hv
  have hsv1 : src.source_.length = 163840 := hsv
  have ht1 := ht
  obtain ⟨hb, hl, ho⟩ := ht1
  simp only [Driver.kSendBufferSize, Driver.kLineCountPerSendBuffer, Driver.kLineSize,
    Driver.kSendBufferCount] at hl ho
  obtain ⟨sb, hm, hlen, hget⟩ := copyLoop_spec src.byteAt 16384 (2048 * drv.currentLine_)
    drv.sendBuffers_ off
    (fun k hk => by
      have hb : (2048 * drv.currentLine_ + k) / 2 < src.source_.length := by omega
      simp only [Display.byteAt, Display.Data, List.getElem?_eq_getElem hb, Option.map_some',
        Option.isSome_some])
    (by omega)
  have hpay : (sb.drop off).take 16384 = src.lineBytes drv.currentLine_ 8 :=
    slot_payload src sb off drv.currentLine_ (fun i h1 h2 => by rw [hget i, if_pos ⟨h1, h2⟩])
  have hcur : (if (drv.currentLine_ + 8) % 256 ≥ 160 then 0 else (drv.currentLine_ + 8) % 256)
      = (drv.currentLine_ + 8) % 160 := by
    split <;> omega
  refine ⟨sb, ?_, hlen, hget⟩
  by_cases h0 : drv.currentLine_ = 0
  · have hsub1 := submit_header usb w drv.sendBuffers_ hdr hh (hs _)
    have hsub2 := submit_slot usb
      { w with submits := w.submits + 1, wire := w.wire ++ [headerSubmission hdr] } sb t off ht
      (by omega) (hs _)
    have hn1 : ¬ usb.submit w.submits < 0 := by have := hs w.submits; omega
    have hn2 : ¬ usb.submit (w.submits + 1) < 0 := by have := hs (w.submits + 1); omega
    simp only [Driver._TransferNextSlice, h0, if_true, hfh, hsub1, hn1, decide_False, hsrc, hb,
      memcpy, Driver.kSendBufferSize, Driver.kLineCountPerSendBuffer, Driver.kLineSize]
    rw [h0] at hm
    simp only [hm, hsub2, hn2, if_false, hpay, slotSubmission, Driver.kLineCountPerSendBuffer, h0]
    simp
  · have hsub2 := submit_slot usb w sb t off ht (by omega) (hs _)
    have hn2 : ¬ usb.submit w.submits < 0 := by have := hs w.submits; omega
    simp only [Driver._TransferNextSlice, h0, if_false, hsrc, hb,
      memcpy, Driver.kSendBufferSize, Driver.kLineCountPerSendBuffer, Driver.kLineSize]
    simp only [hm, hsub2, hn2, if_false, hpay, slotSubmission, Driver.kLineCountPerSendBuffer,
      hcur]
    simp

/-! ## `Driver::_TransferStart` -/

/-- One turn of the loop of `_TransferStart` when the allocation succeeds. -/
theorem transferStartLoop_step (usb : Usb) (i : Nat) (drv : Driver) (w : World)
    (hi : i < 3) (ha : usb.alloc w.allocs = true) :
    Driver._TransferStartLoop usb i drv w =
      match Driver._TransferNextSlice usb drv { w with allocs := w.allocs + 1 }
          (some (slotTransfer drv.handle_ i)) with
      | none => none
      | some (result, drv1, w2) =>
        match RETURN_IF_FAILED result with
        | some failure => some (failure, drv1, w2)
        | none => Driver._TransferStartLoop usb (i + 1) drv1 w2 := by
  rw [Driver._TransferStartLoop]
  simp only [Driver.kSendBufferCount, hi, if_true, Driver._AllocateAndPrepareTransferChunk, ha,
    slotTransfer]

/-- The loop of `_TransferStart` is left when the loop variable reaches 3. -/
theorem transferStartLoop_end (usb : Usb) (drv : Driver) (w : World) :
    Driver._TransferStartLoop usb 3 drv w = some (Result.NoError, drv, w) := by
  rw [Driver._TransferStartLoop]
  simp [Driver.kSendBufferCount]

/-- The transfer prepared for slot `i < 3` covers its own region. -/
theorem slotTransfer_isSlot (handle : Option Nat) (i : Nat) (hi : i < 3) :
    (slotTransfer handle i).isSlot (i * 16384) := by
  refine ⟨rfl, rfl, ?_⟩
  simp only [Driver.kSendBufferSize, Driver.kLineCountPerSendBuffer, Driver.kLineSize,
    Driver.kSendBufferCount]
  omega

/-- One turn of the loop of `_TransferStart` on a reliable transport, entered
with loop variable `i < 3` and cursor `8 * i` on a ready driver: the turn
fills region `i` of `sendBuffers_`, puts the header (in turn 0 only) and slot
`i` on the wire, and goes on with loop variable `i + 1` and cursor
`8 * (i + 1)`. -/
theorem transferStartLoop_turn (usb : Usb) (hu : usb.reliable) (i : Nat) (hi : i < 3)
    (drv : Driver) (w : World) (src : Display) (hdr : libusb_transfer)
    (hr : drv.ready src hdr) (hc : drv.currentLine_ = 8 * i) :
    ∃ sb, Driver._TransferStartLoop usb i drv w =
        Driver._TransferStartLoop usb (i + 1)
          { drv with sendBuffers_ := sb, currentLine_ := 8 * (i + 1) }
          { w with allocs := w.allocs + 1, submits := w.submits + (if i = 0 then 2 else 1),
                   wire := w.wire ++ (if i = 0 then [headerSubmission hdr] else [])
                     ++ [slotSubmission (slotTransfer drv.handle_ i) src (8 * i)] } ∧
      sb.length = drv.sendBuffers_.length ∧
      ∀ x, sb[x]? = if i * 16384 ≤ x ∧ x < i * 16384 + 16384
        then src.byteAt (2048 * (8 * i) + (x - i * 16384)) else drv.sendBuffers_[x]? := by
  obtain ⟨hall, hsub⟩ := hu
  obtain ⟨sb, e, l, g⟩ := nextSlice_spec usb drv { w with allocs := w.allocs + 1 }
    (slotTransfer drv.handle_ i) (i * 16384) src hdr hr (slotTransfer_isSlot _ i hi)
    (by rw [hc]; omega) (by rw [hc]; omega) hsub
  have h1 : (8 * i + 8) % 160 = 8 * (i + 1) := by omega
  have h2 : (8 * i = 0) = (i = 0) := propext ⟨fun h => by omega, fun h => by omega⟩
  rw [hc] at e g
  rw [h1] at e
  simp only [h2] at e
  refine ⟨sb, ?_, l, g⟩
  rw [transferStartLoop_step usb i drv w hi (hall _), e]
  simp only [RETURN_IF_FAILED, Result.Failed, Bool.false_eq_true, if_false]

/-- On a reliable transport, `_TransferStart` on a driver that holds the
staging buffer `src` returns `NoError`; it leaves the cursor at 24, keeps
every member but the cursor, the header transfer and `sendBuffers_`, fills
`sendBuffers_` with the bytes of the staging lines 0 to 23, and puts on the
wire the header and then the three slots. -/
theorem transferStart_spec (usb : Usb) (drv : Driver) (w : World) (src : Display)
    (hu : usb.reliable) (hv : drv.valid) (hsrc : drv.source_ = some src) (hsv : src.valid) :
    ∃ sb, Driver._TransferStart usb drv w =
        some (Result.NoError,
          { drv with currentLine_ := 24, sendBuffers_ := sb,
                     frameHeaderTransfer_ := some (headerTransfer drv.handle_) },
          { w with allocs := w.allocs + 4, submits := w.submits + 4,
                   wire := w.wire ++ [headerSubmission (headerTransfer drv.handle_),
                     slotSubmission (slotTransfer drv.handle_ 0) src 0,
                     slotSubmission (slotTransfer drv.handle_ 1) src 8,
                     slotSubmission (slotTransfer drv.handle_ 2) src 16] }) ∧
      sb.length = 49152 ∧
      ∀ i, i < 3 → (sb.drop (i * 16384)).take 16384 = src.lineBytes (8 * i) 8 := by
  have hv1 : drv.sendBuffers_.length = 49152 := hv
  have hall := hu.1
  obtain ⟨sb1, e1, l1, g1⟩ := transferStartLoop_turn usb hu 0 (by omega)
    { drv with currentLine_ := 0, frameHeaderTransfer_ := some (headerTransfer drv.handle_) }
    { w with allocs := w.allocs + 1 } src (headerTransfer drv.handle_)
    ⟨hv, hsrc, hsv, rfl, rfl, rfl⟩ rfl
  have hl1 : sb1.length = 49152 := by rw [l1]; exact hv1
  obtain ⟨sb2, e2, l2, g2⟩ := transferStartLoop_turn usb hu 1 (by omega)
    { drv with currentLine_ := 8 * (0 + 1), sendBuffers_ := sb1,
               frameHeaderTransfer_ := some (headerTransfer drv.handle_) }
    { w with allocs := w.allocs + 1 + 1, submits := w.submits + (if 0 = 0 then 2 else 1),
             wire := w.wire ++ (if 0 = 0 then [headerSubmission (headerTransfer drv.handle_)]
               else []) ++ [slotSubmission (slotTransfer drv.handle_ 0) src (8 * 0)] }
    src (headerTransfer drv.handle_) ⟨hl1, hsrc, hsv, rfl, rfl, rfl⟩ rfl
  have hl2 : sb2.length = 49152 := by rw [l2]; exact hl1
  obtain ⟨sb3, e3, l3, g3⟩ := transferStartLoop_turn usb hu 2 (by omega)
    { drv with currentLine_ := 8 * (1 + 1), sendBuffers_ := sb2,
               frameHeaderTransfer_ := some (headerTransfer drv.handle_) }
    { w with allocs := w.allocs + 1 + 1 + 1,
             submits := w.submits + (if 0 = 0 then 2 else 1) + (if 1 = 0 then 2 else 1),
             wire := w.wire ++ (if 0 = 0 then [headerSubmission (headerTransfer drv.handle_)]
               else []) ++ [slotSubmission (slotTransfer drv.handle_ 0) src (8 * 0)]
               ++ (if 1 = 0 then [headerSubmission (headerTransfer drv.handle_)] else [])
               ++ [slotSubmission (slotTransfer drv.handle_ 1) src (8 * 1)] }
    src (headerTransfer drv.handle_) ⟨hl2, hsrc, hsv, rfl, rfl, rfl⟩ rfl
  have hl3 : sb3.length = 49152 := by rw [l3]; exact hl2
  refine ⟨sb3, ?_, hl3, ?_⟩
  · have e0 := e1.trans (e2.trans (e3.trans (transferStartLoop_end usb _ _)))
    simp only [Driver._TransferStart, Driver._AllocateAndPrepareTransferChunk, hall, if_true]
    simp only [headerTransfer, frameHeader, List.length] at e0 ⊢
    rw [e0]
    simp
  · intro i hi
    apply slot_payload
    intro x hx1 hx2
    simp only [] at g1 g2 g3
    interval_cases i
    · rw [g3, if_neg (by omega), g2, if_neg (by omega), g1, if_pos (by omega)]
    · rw [g3, if_neg (by omega), g2, if_pos (by omega)]
    · rw [g3, if_pos (by omega)]

/-! ## `Bitmap::PackPixel` -/

/-- Masking a byte with `0xF8` and shifting right by 3 is division by 8. -/
theorem and_F8_shift (x : Nat) (h : x < 256) : (x &&& 0xF8) >>> 3 = x / 8 := by
  interval_cases x <;> rfl

/-- Masking a byte with `0xFC` and shifting right by 2 is division by 4. -/
theorem and_FC_shift (x : Nat) (h : x < 256) : (x &&& 0xFC) >>> 2 = x / 4 := by
  interval_cases x <;> rfl

/-- The value of `PackPixel` as a sum of its three fields. -/
theorem PackPixel_sum (r g b : Nat) (hr : r < 256) (hg : g < 256) (hb : b < 256) :
    Bitmap.PackPixel r g b = 2048 * (b / 8) + (32 * (g / 4) + r / 8) := by
  simp only [Bitmap.PackPixel, and_F8_shift r hr, and_F8_shift b hb, and_FC_shift g hg,
    Nat.shiftLeft_eq]
  omega

/-- Three fields of 5, 6 and 5 bits put side by side with shifts and `|||`. -/
theorem fields_or (x y z : Nat) (hy : y < 64) (hz : z < 32) :
    (x <<< 11) ||| (y <<< 5) ||| z = 2048 * x + (32 * y + z) := by
  have h1 := @Nat.mul_add_lt_is_or 5 z (by omega) y
  have h2 := @Nat.mul_add_lt_is_or 11 (2 ^ 5 * y + z) (by omega) x
  rw [Nat.lor_assoc, Nat.shiftLeft_eq, Nat.shiftLeft_eq, Nat.mul_comm x, Nat.mul_comm y,
    ← h1, ← h2]
  norm_num

/-! ## Device discovery -/

/-- A device that does not qualify is passed over by the scan, which goes on
with the error message the device recorded, if it recorded one. -/
theorem scanDevices_skip (dev : libusb_device) (rest : List libusb_device) (msg : String)
    (h : dev.qualifies = false) :
    Driver.scanDevices (dev :: rest) msg = Driver.scanDevices rest ((dev.error).getD msg) := by
  simp only [libusb_device.qualifies, libusb_device.isPush2, Bool.and_eq_false_iff,
    decide_eq_false_iff_not, not_le] at h
  simp only [Driver.scanDevices, libusb_device.error, libusb_device.isPush2]
  by_cases h1 : dev.descriptor_rc < 0
  · simp [h1]
  · by_cases h2 : dev.descriptor.bDeviceClass = LIBUSB_CLASS_PER_INTERFACE ∧
        dev.descriptor.idVendor = 0x2982 ∧ dev.descriptor.idProduct = 0x1967
    · obtain ⟨ha, hb, hc⟩ := h2
      have h3 : 0 ≤ dev.descriptor_rc := by omega
      by_cases h4 : dev.open_rc < 0
      · simp [h1, ha, hb, hc, h3, h4]
      · have h5 : dev.claim_rc < 0 := by
          rcases h with ((((h | h) | h) | h) | h) | h
          · omega
          · exact absurd ha h
          · exact absurd hb h
          · exact absurd hc h
          · omega
          · exact h
        simp [h1, ha, hb, hc, h3, h4, h5]
    · have h3 : 0 ≤ dev.descriptor_rc := by omega
      have h6 : ¬ (dev.descriptor.bDeviceClass = LIBUSB_CLASS_PER_INTERFACE ∧
        dev.descriptor.idVendor = 10626 ∧ dev.descriptor.idProduct = 6503) := h2
      simp only [h1, if_false, h6]
      have h7 : (decide (0 ≤ dev.descriptor_rc) &&
          decide (dev.descriptor.bDeviceClass = LIBUSB_CLASS_PER_INTERFACE) &&
          decide (dev.descriptor.idVendor = 10626) && decide (dev.descriptor.idProduct = 6503))
          = false := by
        simp only [Bool.and_eq_false_iff, decide_eq_false_iff_not]
        by_cases ha : dev.descriptor.bDeviceClass = LIBUSB_CLASS_PER_INTERFACE
        · by_cases hb : dev.descriptor.idVendor = 10626
          · right; exact fun hc => h6 ⟨ha, hb, hc⟩
          · left; right; exact hb
        · left; left; right; exact ha
      simp [h7]

/-- A device that qualifies ends the scan with its handle. -/
theorem scanDevices_hit (dev : libusb_device) (rest : List libusb_device) (msg : String)
    (h : dev.qualifies = true) :
    Driver.scanDevices (dev :: rest) msg = (some dev.handle, msg) := by
  simp only [libusb_device.qualifies, libusb_device.isPush2, Bool.and_eq_true,
    decide_eq_true_eq] at h
  obtain ⟨⟨⟨⟨⟨h1, ha⟩, hb⟩, hc⟩, h4⟩, h5⟩ := h
  have n1 : ¬ dev.descriptor_rc < 0 := by omega
  have n4 : ¬ dev.open_rc < 0 := by omega
  have n5 : ¬ dev.claim_rc < 0 := by omega
  simp [Driver.scanDevices, n1, n4, n5, ha, hb, hc]

/-- Over devices none of which qualifies the scan finds no handle and ends
with the last error message recorded. -/
theorem scanDevices_none (devices : List libusb_device) :
    ∀ msg, (∀ x, x ∈ devices → x.qualifies = false) →
      Driver.scanDevices devices msg =
        (none, ((devices.filterMap libusb_device.error).getLast?).getD msg) := by
  induction devices with
  | nil => intro msg _; rfl
  | cons dev rest ih =>
    intro msg h
    rw [scanDevices_skip dev rest msg (h dev (List.mem_cons_self _ _)),
      ih _ (fun x hx => h x (List.mem_cons_of_mem _ hx)), List.filterMap_cons]
    cases he : dev.error with
    | none => rfl
    | some e => simp [List.getLast?_cons]

/-- The scan returns the handle of the first device that qualifies. -/
theorem scanDevices_first (pre : List libusb_device) (dev : libusb_device)
    (post : List libusb_device) :
    ∀ msg, (∀ x, x ∈ pre → x.qualifies = false) → dev.qualifies = true →
      (Driver.scanDevices (pre ++ dev :: post) msg).1 = some dev.handle := by
  induction pre with
  | nil => intro msg _ hq; rw [List.nil_append, scanDevices_hit dev post msg hq]
  | cons x pre ih =>
    intro msg h hq
    rw [List.cons_append, scanDevices_skip x _ msg (h x (List.mem_cons_self _ _))]
    exact ih _ (fun y hy => h y (List.mem_cons_of_mem _ hy)) hq

/-- A list with a qualifying device splits at the first one. -/
theorem first_qualifying (devices : List libusb_device)
    (h : ∃ dev, dev ∈ devices ∧ dev.qualifies = true) :
    ∃ pre dev post, devices = pre ++ dev :: post ∧ (∀ x, x ∈ pre → x.qualifies = false) ∧
      dev.qualifies = true := by
  induction devices with
  | nil => obtain ⟨dev, hm, _⟩ := h; exact absurd hm (List.not_mem_nil _)
  | cons x rest ih =>
    by_cases hx : x.qualifies = true
    · exact ⟨[], x, rest, rfl, fun y hy => absurd hy (List.not_mem_nil _), hx⟩
    · obtain ⟨dev, hm, hq⟩ := h
      have hrest : ∃ dev, dev ∈ rest ∧ dev.qualifies = true := by
        rcases List.mem_cons.mp hm with rfl | hm1
        · exact absurd hq hx
        · exact ⟨dev, hm1, hq⟩
      obtain ⟨pre, d, post, he, hp, hd⟩ := ih hrest
      refine ⟨x :: pre, d, post, by rw [he]; rfl, fun y hy => ?_, hd⟩
      rcases List.mem_cons.mp hy with rfl | hy1
      · simpa using hx
      · exact hp y hy1

/-- Discovery over a device list that was obtained, in terms of the scan. -/
theorem find_eq_scan (bus : UsbBus) (devices : List libusb_device) (handle : Option Nat)
    (hinit : 0 ≤ bus.init_rc) (hlist : bus.device_list = some devices) :
    Driver._FindPushDisplayDeviceHandle bus handle =
      match Driver.scanDevices devices "display device not found\n" with
      | (some device_handle, _) => (Result.NoError, some device_handle)
      | (none, ErrorMsg) => (Result.Error ErrorMsg, none) := by
  have h : ¬ bus.init_rc < 0 := by omega
  simp only [Driver._FindPushDisplayDeviceHandle, h, if_false, hlist]

/-- Discovery returns `NoError` exactly when it hands out a handle. -/
theorem find_handle (bus : UsbBus) (handle : Option Nat) :
    (Driver._FindPushDisplayDeviceHandle bus handle).1.Failed = false →
      (Driver._FindPushDisplayDeviceHandle bus handle).1 = Result.NoError ∧
      (Driver._FindPushDisplayDeviceHandle bus handle).2 ≠ none := by
  unfold Driver._FindPushDisplayDeviceHandle
  by_cases h : bus.init_rc < 0
  · simp [h, Result.Failed]
  · simp only [h, if_false]
    cases bus.device_list with
    | none => simp [Result.Failed]
    | some devices =>
      simp only []
      rcases Driver.scanDevices devices "display device not found\n" with ⟨a, b⟩
      cases a with
      | none => simp [Result.Failed]
      | some x => simp

/-! ## The completion callback and the worker thread -/

/-- The completion callback leaves the driver as it is and touches nothing
of the world but the printed lines. -/
theorem transferFinished_spec (drv : Driver) (w : World) (t : libusb_transfer) :
    ∃ out, Driver._TransferFinished drv w t = (drv, { w with out := out }) := by
  unfold Driver._TransferFinished
  split_ifs <;> exact ⟨_, rfl⟩

/-- Handling the completion events leaves the driver as it is and touches
nothing of the world but the printed lines. -/
theorem handle_events_spec (ts : List libusb_transfer) :
    ∀ (drv : Driver) (w : World),
      ∃ out, libusb_handle_events drv w ts = (drv, { w with out := out }) := by
  induction ts with
  | nil => intro drv w; exact ⟨w.out, rfl⟩
  | cons t rest ih =>
    intro drv w
    obtain ⟨o1, h1⟩ := transferFinished_spec drv w t
    obtain ⟨o2, h2⟩ := ih drv { w with out := o1 }
    exact ⟨o2, by simp only [libusb_handle_events, Driver._OnTransferFinished, h1, h2]⟩

/-- One turn of the worker loop on a reliable transport, for a driver that
holds the staging buffer `src`, whatever completions are reported: the turn
goes on, leaves the cursor at 24 and puts on the wire the header and the three
slots of `_TransferStart`, nothing else. -/
theorem transferThreadTurn_spec (usb : Usb) (drv : Driver) (w : World) (src : Display)
    (completed : List libusb_transfer) (status : Int)
    (hu : usb.reliable) (hv : drv.valid) (hsrc : drv.source_ = some src) (hsv : src.valid) :
    ∃ sb out, Driver._TransferThreadTurn usb drv w completed status =
        some (true,
          { drv with currentLine_ := 24, sendBuffers_ := sb,
                     frameHeaderTransfer_ := some (headerTransfer drv.handle_) },
          { allocs := w.allocs + 4, submits := w.submits + 4,
            wire := w.wire ++ [headerSubmission (headerTransfer drv.handle_),
              slotSubmission (slotTransfer drv.handle_ 0) src 0,
              slotSubmission (slotTransfer drv.handle_ 1) src 8,
              slotSubmission (slotTransfer drv.handle_ 2) src 16],
            out := out }) ∧
      sb.length = 49152 := by
  obtain ⟨sb, e, hl, _⟩ := transferStart_spec usb drv w src hu hv hsrc hsv
  obtain ⟨o, ho⟩ := handle_events_spec completed
    { drv with currentLine_ := 24, sendBuffers_ := sb,
               frameHeaderTransfer_ := some (headerTransfer drv.handle_) }
    { w with allocs := w.allocs + 4, submits := w.submits + 4,
             wire := w.wire ++ [headerSubmission (headerTransfer drv.handle_),
               slotSubmission (slotTransfer drv.handle_ 0) src 0,
               slotSubmission (slotTransfer drv.handle_ 1) src 8,
               slotSubmission (slotTransfer drv.handle_ 2) src 16] }
  by_cases hst : status < 0
  · refine ⟨sb, o ++ ["handle_events_timeout: failed with: " ++ toString status], ?_, hl⟩
    simp only [Driver._TransferThreadTurn, e, Result.Failed, ho, hst, if_true]
    simp
  · refine ⟨sb, o, ?_, hl⟩
    simp only [Driver._TransferThreadTurn, e, Result.Failed, ho, hst, if_false]
    simp

/-- A turn of the worker loop that goes on is followed by the rest of the
loop. -/
theorem transferThread_step (usb : Usb) (events : Nat → List libusb_transfer × Int)
    (turns n : Nat) (drv drv1 : Driver) (w w1 : World) (ht : drv.terminate_ = false)
    (e : Driver._TransferThreadTurn usb drv w (events n).1 (events n).2 = some (true, drv1, w1)) :
    Driver._TransferThread usb events (turns + 1) n drv w =
      Driver._TransferThread usb events turns (n + 1) drv1 w1 := by
  simp only [Driver._TransferThread, ht, Bool.false_eq_true, if_false, e]

/-! ## Consecutive slices -/

/-- Consecutive calls of `_TransferNextSlice` with slot transfers, entered at
call number `j` with cursor `8 * j % 160` on a transport that accepts every
submission, all return `NoError`; the cursor ends at
`8 * (j + k) % 160` after `k` calls and the wire gains `sliceWire`. -/
theorem nextSlices_spec (usb : Usb) (hs : ∀ n, 0 ≤ usb.submit n) (src : Display)
    (hdr : libusb_transfer) (ts : List libusb_transfer) :
    ∀ (j : Nat) (drv : Driver) (w : World), drv.ready src hdr →
      drv.currentLine_ = 8 * j % 160 → (∀ t, t ∈ ts → ∃ off, t.isSlot off) →
      ∃ drv1 w1, Driver.nextSlices usb ts drv w = some (Result.NoError, drv1, w1) ∧
        drv1.ready src hdr ∧ drv1.currentLine_ = 8 * (j + ts.length) % 160 ∧
        w1.wire = w.wire ++ sliceWire hdr src j ts := by
  induction ts with
  | nil =>
    intro j drv w hr hc _
    exact ⟨drv, w, rfl, hr, by simpa using hc, by simp [sliceWire]⟩
  | cons t rest ih =>
    intro j drv w hr hc hts
    obtain ⟨off, ht⟩ := hts t (List.mem_cons_self _ _)
    obtain ⟨sb, e, hl, _⟩ := nextSlice_spec usb drv w t off src hdr hr ht
      (by rw [hc]; omega) (by rw [hc]; omega) hs
    obtain ⟨hv, hsrc, hsv, hfh, hh⟩ := hr
    have hr1 : Driver.ready
        { drv with sendBuffers_ := sb, currentLine_ := (drv.currentLine_ + 8) % 160 } src hdr :=
      ⟨by show sb.length = _; rw [hl]; exact hv, hsrc, hsv, hfh, hh⟩
    obtain ⟨drv1, w1, e1, hr2, hc1, hw1⟩ := ih (j + 1) _ _ hr1
      (by show (drv.currentLine_ + 8) % 160 = _; rw [hc]; omega)
      (fun x hx => hts x (List.mem_cons_of_mem _ hx))
    refine ⟨drv1, w1, ?_, hr2, ?_, ?_⟩
    · simp only [Driver.nextSlices, e, Result.Failed, Bool.false_eq_true, if_false]
      exact e1
    · rw [hc1, List.length_cons]
      congr 2
      omega
    · rw [hw1]
      simp only [sliceWire, hc, List.append_assoc, List.singleton_append]

/-! ## The cursor invariant -/

/-- One call of `_TransferNextSlice` on a ready driver whose cursor is a
multiple of 8 below 160, with a slot transfer, whatever the transport answers:
the call returns, it changes nothing of the driver but `sendBuffers_` (whose
size it keeps) and the cursor, and the cursor is left unchanged when the
result is a failure and advanced by 8 modulo 160 otherwise. -/
theorem nextSlice_total (usb : Usb) (drv : Driver) (w : World) (t : libusb_transfer) (off : Nat)
    (src : Display) (hdr : libusb_transfer) (hr : drv.ready src hdr) (ht : t.isSlot off)
    (hc8 : drv.currentLine_ % 8 = 0) (hc : drv.currentLine_ < 160) :
    ∃ r sb w1, Driver._TransferNextSlice usb drv w (some t) =
        some (r,
          { drv with sendBuffers_ := sb,
                     currentLine_ := if r.Failed then drv.currentLine_
                       else (drv.currentLine_ + 8) % 160 }, w1) ∧
      sb.length = drv.sendBuffers_.length := by
  obtain ⟨hv, hsrc, hsv, hfh, hhd⟩ := hr
  have hv1 : drv.sendBuffers_.length = 49152 := hv
  have hsv1 : src.source_.length = 163840 := hsv
  have ht1 := ht
  obtain ⟨hb, hl, ho⟩ := ht1
  simp only [Driver.kSendBufferSize, Driver.kLineCountPerSendBuffer, Driver.kLineSize,
    Driver.kSendBufferCount] at hl ho
  obtain ⟨sb, hm, hlen, _⟩ := copyLoop_spec src.byteAt 16384 (2048 * drv.currentLine_)
    drv.sendBuffers_ off
    (fun k hk => by
      have hb : (2048 * drv.currentLine_ + k) / 2 < src.source_.length := by omega
      simp only [Display.byteAt, Display.Data, List.getElem?_eq_getElem hb, Option.map_some',
        Option.isSome_some])
    (by omega)
  have hcur : (if (drv.currentLine_ + 8) % 256 ≥ 160 then 0 else (drv.currentLine_ + 8) % 256)
      = (drv.currentLine_ + 8) % 160 := by
    split <;> omega
  have body : ∀ w0 : World, ∃ r w1,
      (match memcpy drv.sendBuffers_ off src.byteAt (Driver.kLineSize * drv.currentLine_)
          Driver.kSendBufferSize with
      | none => none
      | some sendBuffers =>
        match libusb_submit_transfer usb w0 sendBuffers (some t) with
        | none => none
        | some (rc, w2) =>
          if rc < 0 then some (Result.Error "could not submit display data transfer",
            { drv with sendBuffers_ := sendBuffers }, w2)
          else
            some (Result.NoError,
              { drv with sendBuffers_ := sendBuffers,
                         currentLine_ :=
                  if (drv.currentLine_ + Driver.kLineCountPerSendBuffer) % 256 ≥ 160 then 0
                  else (drv.currentLine_ + Driver.kLineCountPerSendBuffer) % 256 }, w2))
        = some (r,
            { drv with sendBuffers_ := sb,
                       currentLine_ := if r.Failed then drv.currentLine_
                         else (drv.currentLine_ + 8) % 160 }, w1) := by
    intro w0
    obtain ⟨rc, w2, hsub⟩ := submit_slot_some usb w0 sb t off ht (by omega)
    simp only [memcpy, Driver.kSendBufferSize, Driver.kLineCountPerSendBuffer,
      Driver.kLineSize, hm, hsub, hcur]
    by_cases hrc : rc < 0
    · exact ⟨Result.Error "could not submit display data transfer", w2, by
        simp only [hrc, if_true, Result.Failed]⟩
    · exact ⟨Result.NoError, w2, by
        simp only [hrc, if_false, Result.Failed, Bool.false_eq_true]⟩
  by_cases h0 : drv.currentLine_ = 0
  · by_cases hrej : usb.submit w.submits < 0
    · refine ⟨Result.Error "could not submit frame header transfer", drv.sendBuffers_,
        { w with submits := w.submits + 1 }, ?_, rfl⟩
      obtain ⟨hhb, hhl⟩ := hhd
      simp [Driver._TransferNextSlice, h0, hfh, libusb_submit_transfer, readBuffer, hhb, hhl,
        frameHeader, hrej, Result.Failed]
      cases drv
      simp only [Driver.mk.injEq, true_and, and_true]
      exact ⟨hfh, h0⟩
    · have hsub1 := submit_header usb w drv.sendBuffers_ hdr hhd (by omega)
      obtain ⟨r, w1, e⟩ := body
        { w with submits := w.submits + 1, wire := w.wire ++ [headerSubmission hdr] }
      refine ⟨r, sb, w1, ?_, hlen⟩
      rw [← e]
      simp only [Driver._TransferNextSlice, h0, if_true, hfh, hsub1, hrej, decide_False, hsrc, hb]
  · obtain ⟨r, w1, e⟩ := body w
    refine ⟨r, sb, w1, ?_, hlen⟩
    rw [← e]
    simp only [Driver._TransferNextSlice, h0, if_false, hsrc, hb]

/-- The loop of `_TransferStart`, entered with `k` turns to go on a ready
driver whose cursor is a multiple of 8 below 160, when every allocation
succeeds and whatever the submissions answer: the loop returns, and the
cursor is again a multiple of 8 below 160. -/
theorem transferStartLoop_total (usb : Usb) (ha : ∀ n, usb.alloc n = true) (src : Display)
    (hdr : libusb_transfer) (k : Nat) :
    ∀ (i : Nat) (drv : Driver) (w : World), i + k = 3 → drv.ready src hdr →
      drv.currentLine_ % 8 = 0 → drv.currentLine_ < 160 →
      ∃ r drv1 w1, Driver._TransferStartLoop usb i drv w = some (r, drv1, w1) ∧
        drv1.currentLine_ % 8 = 0 ∧ drv1.currentLine_ < 160 := by
  induction k with
  | zero =>
    intro i drv w hi _ h8 hlt
    have h3 : i = 3 := by omega
    subst h3
    exact ⟨Result.NoError, drv, w, transferStartLoop_end usb drv w, h8, hlt⟩
  | succ k ih =>
    intro i drv w hi hr h8 hlt
    have hi3 : i < 3 := by omega
    obtain ⟨r, sb, w1, e, hl⟩ := nextSlice_total usb drv { w with allocs := w.allocs + 1 }
      (slotTransfer drv.handle_ i) (i * 16384) src hdr hr (slotTransfer_isSlot _ i hi3) h8 hlt
    rw [transferStartLoop_step usb i drv w hi3 (ha _), e]
    cases r with
    | Error m =>
      refine ⟨Result.Error m,
        { drv with sendBuffers_ := sb,
                   currentLine_ := if (Result.Error m).Failed then drv.currentLine_
                     else (drv.currentLine_ + 8) % 160 }, w1, ?_, ?_, ?_⟩
      · simp only [RETURN_IF_FAILED, Result.Failed, if_true]
      · simpa [Result.Failed] using h8
      · simpa [Result.Failed] using hlt
    | NoError =>
      obtain ⟨hv, hsrc, hsv, hfh, hhd⟩ := hr
      have hr1 : Driver.ready
          { drv with sendBuffers_ := sb,
                     currentLine_ := if Result.NoError.Failed then drv.currentLine_
                       else (drv.currentLine_ + 8) % 160 } src hdr :=
        ⟨by show sb.length = _; rw [hl]; exact hv, hsrc, hsv, hfh, hhd⟩
      obtain ⟨r2, drv2, w2, e2, h82, hlt2⟩ := ih (i + 1) _ w1 (by omega) hr1
        (by simp only [Result.Failed, Bool.false_eq_true, if_false]; omega)
        (by simp only [Result.Failed, Bool.false_eq_true, if_false]; omega)
      refine ⟨r2, drv2, w2, ?_, h82, hlt2⟩
      simp only [RETURN_IF_FAILED, Result.Failed, Bool.false_eq_true, if_false]
      exact e2

/-! ## The concrete inputs -/

/-- The zero-filled bitmap has the declared size. -/
theorem Bitmap_init_valid : Bitmap.init.valid := by
  simp [Bitmap.valid, Bitmap.init]

/-- The zero-filled staging buffer has the declared size. -/
theorem Display_init_valid : Display.init.valid := by
  simp [Display.valid, Display.init]

/-- The transport `usbOk` is reliable. -/
theorem usbOk_reliable : usbOk.reliable :=
  ⟨fun _ => rfl, fun _ => le_refl (0 : Int)⟩

/-- The arrays of `openedDriver` have their declared sizes. -/
theorem openedDriver_valid : openedDriver.valid := by
  show (List.replicate 49152 0).length = 3 * (8 * 2048)
  rw [List.length_replicate]

/-- The driver `readyDriver` is ready with the zero-filled staging buffer. -/
theorem readyDriver_ready : readyDriver.ready Display.init (headerTransfer (some 7)) :=
  ⟨openedDriver_valid, rfl, Display_init_valid, rfl, rfl, rfl⟩

/-! ## The claims -/

/-- C1, the code at the failing input: with the zero-filled staging buffer,
a transport on which everything succeeds and every completion reported as
successful, one turn of the worker loop puts on the wire the header and three
slot submissions, the staging lines 0 to 23, and stops at cursor 24; the next
turn starts again with the header and the lines 0 to 23. A cycle issues 3 slot
submissions, not 20, and the lines 24 to 159 are never sent. -/
theorem C1_cycle_submits_three_slots :
    (∃ drv1 w1, Driver._TransferThreadTurn usbOk openedDriver world0 completedOk 0
        = some (true, drv1, w1) ∧
      w1.wire = [⟨1, frameHeader⟩, ⟨1, Display.init.lineBytes 0 8⟩,
        ⟨1, Display.init.lineBytes 8 8⟩, ⟨1, Display.init.lineBytes 16 8⟩] ∧
      w1.wire.length = 1 + 3 ∧ drv1.currentLine_ = 24) ∧
    (∃ drv2 w2, Driver._TransferThread usbOk (fun _ => (completedOk, 0)) 2 0 openedDriver world0
        = some (drv2, w2) ∧
      w2.wire = [⟨1, frameHeader⟩, ⟨1, Display.init.lineBytes 0 8⟩,
        ⟨1, Display.init.lineBytes 8 8⟩, ⟨1, Display.init.lineBytes 16 8⟩,
        ⟨1, frameHeader⟩, ⟨1, Display.init.lineBytes 0 8⟩,
        ⟨1, Display.init.lineBytes 8 8⟩, ⟨1, Display.init.lineBytes 16 8⟩]) := by
  obtain ⟨sb1, o1, e1, l1⟩ := transferThreadTurn_spec usbOk openedDriver world0 Display.init
    completedOk 0 usbOk_reliable openedDriver_valid rfl Display_init_valid
  obtain ⟨sb2, o2, e2, _⟩ := transferThreadTurn_spec usbOk
    { openedDriver with currentLine_ := 24, sendBuffers_ := sb1,
                        frameHeaderTransfer_ := some (headerTransfer openedDriver.handle_) }
    { allocs := world0.allocs + 4, submits := world0.submits + 4,
      wire := world0.wire ++ [headerSubmission (headerTransfer openedDriver.handle_),
        slotSubmission (slotTransfer openedDriver.handle_ 0) Display.init 0,
        slotSubmission (slotTransfer openedDriver.handle_ 1) Display.init 8,
        slotSubmission (slotTransfer openedDriver.handle_ 2) Display.init 16],
      out := o1 }
    Display.init completedOk 0 usbOk_reliable l1 rfl Display_init_valid
  exact ⟨⟨_, _, e1, rfl, rfl, rfl⟩, _, _,
    (transferThread_step usbOk _ 1 0 _ _ _ _ rfl e1).trans
      ((transferThread_step usbOk _ 0 1 _ _ _ _ rfl e2).trans rfl), rfl⟩

/-- C2: for every driver that holds the staging buffer `A` and every caller
buffer `B`, after `Swap` the driver holds `B` and the caller's pointer `A`, and
the cursor and `sendBuffers_` are as before; what the next `_TransferStart`
does is the same whatever `A` was, and on a reliable transport its slots carry
the staging lines of `B`. -/
theorem C2_Swap (usb : Usb) (drv : Driver) (w : World) (A B : Display)
    (hA : drv.source_ = some A) (hu : usb.reliable) (hv : drv.valid) (hB : B.valid) :
    (Driver.Swap drv (some B)).1.source_ = some B ∧
    (Driver.Swap drv (some B)).2 = some A ∧
    (Driver.Swap drv (some B)).1.currentLine_ = drv.currentLine_ ∧
    (Driver.Swap drv (some B)).1.sendBuffers_ = drv.sendBuffers_ ∧
    (∀ (A1 : Option Display) (usb1 : Usb) (w1 : World),
      Driver._TransferStart usb1 (Driver.Swap { drv with source_ := A1 } (some B)).1 w1 =
        Driver._TransferStart usb1 (Driver.Swap drv (some B)).1 w1) ∧
    (∃ drv1 w1, Driver._TransferStart usb (Driver.Swap drv (some B)).1 w
        = some (Result.NoError, drv1, w1) ∧
      w1.wire = w.wire ++
        [⟨0x01, frameHeader⟩, ⟨0x01, B.lineBytes 0 8⟩, ⟨0x01, B.lineBytes 8 8⟩,
         ⟨0x01, B.lineBytes 16 8⟩] ∧
      drv1.source_ = some B) := by
  obtain ⟨sb, e, _, _⟩ := transferStart_spec usb (Driver.Swap drv (some B)).1 w B hu hv rfl hB
  exact ⟨rfl, hA, rfl, rfl, fun _ _ _ => rfl, _, _, e, rfl, rfl⟩

/-- C2 at `openedDriver`, which holds the zero-filled staging buffer, and a
caller buffer filled with `0xFFFF`. -/
theorem C2_Swap_witness :
    (openedDriver.source_ = some Display.init ∧ usbOk.reliable ∧ openedDriver.valid ∧
      Display.valid ⟨List.replicate 163840 0xFFFF⟩) ∧
    (Driver.Swap openedDriver (some ⟨List.replicate 163840 0xFFFF⟩)).1.source_
      = some ⟨List.replicate 163840 0xFFFF⟩ ∧
    (Driver.Swap openedDriver (some ⟨List.replicate 163840 0xFFFF⟩)).2 = some Display.init ∧
    (Driver.Swap openedDriver (some ⟨List.replicate 163840 0xFFFF⟩)).1.currentLine_
      = openedDriver.currentLine_ ∧
    (Driver.Swap openedDriver (some ⟨List.replicate 163840 0xFFFF⟩)).1.sendBuffers_
      = openedDriver.sendBuffers_ ∧
    (∀ (A1 : Option Display) (usb1 : Usb) (w1 : World),
      Driver._TransferStart usb1
          (Driver.Swap { openedDriver with source_ := A1 }
            (some ⟨List.replicate 163840 0xFFFF⟩)).1 w1 =
        Driver._TransferStart usb1
          (Driver.Swap openedDriver (some ⟨List.replicate 163840 0xFFFF⟩)).1 w1) ∧
    (∃ drv1 w1, Driver._TransferStart usbOk
          (Driver.Swap openedDriver (some ⟨List.replicate 163840 0xFFFF⟩)).1 world0
        = some (Result.NoError, drv1, w1) ∧
      w1.wire = world0.wire ++
        [⟨0x01, frameHeader⟩, ⟨0x01, Display.lineBytes ⟨List.replicate 163840 0xFFFF⟩ 0 8⟩,
         ⟨0x01, Display.lineBytes ⟨List.replicate 163840 0xFFFF⟩ 8 8⟩,
         ⟨0x01, Display.lineBytes ⟨List.replicate 163840 0xFFFF⟩ 16 8⟩] ∧
      drv1.source_ = some ⟨List.replicate 163840 0xFFFF⟩) :=
  have hB : Display.valid ⟨List.replicate 163840 0xFFFF⟩ := List.length_replicate _ _
  ⟨⟨rfl, usbOk_reliable, openedDriver_valid, hB⟩,
    C2_Swap usbOk openedDriver world0 Display.init ⟨List.replicate 163840 0xFFFF⟩ rfl
      usbOk_reliable openedDriver_valid hB⟩

/-- C3: for every bitmap `g` and every prior content `d` of the staging
buffer, `Flip` returns `NoError`, and in every row `y < 160` of the new
content the first 960 columns are row `y` of `g` while the padding columns
960 to 1023 are what they were in `d`. -/
theorem C3_Flip_copies_rows (g : Bitmap) (d : Display) (hg : g.valid) (hd : d.valid) :
    ∃ d1, Display.Flip d g = some (Result.NoError, d1) ∧ d1.valid ∧
      ∀ y, y < 160 →
        (∀ x, x < 960 → d1.source_[1024 * y + x]? = g.buffer_[960 * y + x]?) ∧
        (∀ x, 960 ≤ x → x < 1024 → d1.source_[1024 * y + x]? = d.source_[1024 * y + x]?) := by
  obtain ⟨out, ho, hlen, hget⟩ := FlipLoop_spec g hg 160 0 d.source_ (by omega) hd
  refine ⟨⟨out⟩, ?_, hlen, fun y hy => ⟨fun x hx => ?_, fun x h1 h2 => ?_⟩⟩
  · simp [Display.Flip, Bitmap.Height, Display.kDataSourceHeight, ho]
  · rw [hget y x (by omega), if_pos (by omega)]
  · rw [hget y x h2, if_neg (by omega)]

/-- C3 at the zero-filled bitmap and the zero-filled staging buffer. -/
theorem C3_Flip_copies_rows_witness :
    Bitmap.init.valid ∧ Display.init.valid ∧
    ∃ d1, Display.Flip Display.init Bitmap.init = some (Result.NoError, d1) ∧ d1.valid ∧
      ∀ y, y < 160 →
        (∀ x, x < 960 → d1.source_[1024 * y + x]? = Bitmap.init.buffer_[960 * y + x]?) ∧
        (∀ x, 960 ≤ x → x < 1024 →
          d1.source_[1024 * y + x]? = Display.init.source_[1024 * y + x]?) :=
  ⟨Bitmap_init_valid, Display_init_valid,
    C3_Flip_copies_rows Bitmap.init Display.init Bitmap_init_valid Display_init_valid⟩

/-- C4: for all bytes `r`, `g`, `b`, `PackPixel r g b` is
`((b >> 3) << 11) | ((g >> 2) << 5) | (r >> 3)`, a 16-bit value equal to the
untruncated sum of its shifted fields; the fields are recovered by the inverse
shifts; two inputs pack to the same pixel exactly when they agree after
dropping the low 3, 2 and 3 bits of `r`, `g` and `b`; and
`PackPixel 0xF8 0xFC 0xF8 = 0xFFFF`, `PackPixel 0 0 0 = 0`. -/
theorem C4_PackPixel (r g b : Nat) (hr : r < 256) (hg : g < 256) (hb : b < 256) :
    Bitmap.PackPixel r g b = ((b >>> 3) <<< 11) ||| ((g >>> 2) <<< 5) ||| (r >>> 3) ∧
    Bitmap.PackPixel r g b = (b >>> 3) * 2 ^ 11 + (g >>> 2) * 2 ^ 5 + (r >>> 3) ∧
    Bitmap.PackPixel r g b < 65536 ∧
    Bitmap.PackPixel r g b &&& 0x1F = r >>> 3 ∧
    (Bitmap.PackPixel r g b >>> 5) &&& 0x3F = g >>> 2 ∧
    Bitmap.PackPixel r g b >>> 11 = b >>> 3 ∧
    (∀ r1 g1 b1, r1 < 256 → g1 < 256 → b1 < 256 →
      (Bitmap.PackPixel r g b = Bitmap.PackPixel r1 g1 b1 ↔
        r >>> 3 = r1 >>> 3 ∧ g >>> 2 = g1 >>> 2 ∧ b >>> 3 = b1 >>> 3)) ∧
    Bitmap.PackPixel 0xF8 0xFC 0xF8 = 0xFFFF ∧ Bitmap.PackPixel 0 0 0 = 0 := by
  have hsum := PackPixel_sum r g b hr hg hb
  have m5 : ∀ x : Nat, x &&& 0x1F = x % 32 := fun x => Nat.and_pow_two_sub_one_eq_mod x 5
  have m6 : ∀ x : Nat, x &&& 0x3F = x % 64 := fun x => Nat.and_pow_two_sub_one_eq_mod x 6
  refine ⟨?_, ?_, ?_, ?_, ?_, ?_, ?_, by decide, by decide⟩
  · rw [hsum, Nat.shiftRight_eq_div_pow, Nat.shiftRight_eq_div_pow, Nat.shiftRight_eq_div_pow,
      fields_or _ _ _ (by norm_num; omega) (by norm_num; omega)]
  · rw [hsum]
    simp only [Nat.shiftRight_eq_div_pow]
    norm_num
    omega
  · rw [hsum]; omega
  · rw [hsum, m5, Nat.shiftRight_eq_div_pow]
    norm_num
    omega
  · rw [hsum, m6]
    simp only [Nat.shiftRight_eq_div_pow]
    norm_num
    omega
  · rw [hsum]
    simp only [Nat.shiftRight_eq_div_pow]
    norm_num
    omega
  · intro r1 g1 b1 hr1 hg1 hb1
    rw [hsum, PackPixel_sum r1 g1 b1 hr1 hg1 hb1]
    simp only [Nat.shiftRight_eq_div_pow]
    norm_num
    omega

/-- C4 at the bytes `0x12`, `0x34`, `0x56`. -/
theorem C4_PackPixel_witness :
    (0x12 < 256 ∧ 0x34 < 256 ∧ 0x56 < 256) ∧
    Bitmap.PackPixel 0x12 0x34 0x56 = ((0x56 >>> 3) <<< 11) ||| ((0x34 >>> 2) <<< 5) ||| (0x12 >>> 3) ∧
    Bitmap.PackPixel 0x12 0x34 0x56 = (0x56 >>> 3) * 2 ^ 11 + (0x34 >>> 2) * 2 ^ 5 + (0x12 >>> 3) ∧
    Bitmap.PackPixel 0x12 0x34 0x56 < 65536 ∧
    Bitmap.PackPixel 0x12 0x34 0x56 &&& 0x1F = 0x12 >>> 3 ∧
    (Bitmap.PackPixel 0x12 0x34 0x56 >>> 5) &&& 0x3F = 0x34 >>> 2 ∧
    Bitmap.PackPixel 0x12 0x34 0x56 >>> 11 = 0x56 >>> 3 ∧
    (∀ r1 g1 b1, r1 < 256 → g1 < 256 → b1 < 256 →
      (Bitmap.PackPixel 0x12 0x34 0x56 = Bitmap.PackPixel r1 g1 b1 ↔
        0x12 >>> 3 = r1 >>> 3 ∧ 0x34 >>> 2 = g1 >>> 2 ∧ 0x56 >>> 3 = b1 >>> 3)) ∧
    Bitmap.PackPixel 0xF8 0xFC 0xF8 = 0xFFFF ∧ Bitmap.PackPixel 0 0 0 = 0 :=
  ⟨by decide, C4_PackPixel 0x12 0x34 0x56 (by decide) (by decide) (by decide)⟩

/-- C5: `Open` on a driver whose worker thread has not been started hands the
caller's staging buffer to the driver and the driver's previous buffer to the
caller (null for a freshly constructed driver), then runs discovery; it
returns an error exactly when discovery fails, and then the thread is not
started and the terminate flag is not touched; otherwise it returns `NoError`
with a handle, the terminate flag cleared and the worker thread started. -/
theorem C5_Open (bus : UsbBus) (drv : Driver) (source : Option Display)
    (hclosed : drv.transferThread_ = false) :
    (∃ r drv1, Driver.Open bus drv source = some (r, drv1, drv.source_) ∧
      drv1.source_ = source ∧
      (r.Failed = true ↔ (Driver._FindPushDisplayDeviceHandle bus drv.handle_).1.Failed = true) ∧
      (r.Failed = true → drv1.transferThread_ = false ∧ drv1.terminate_ = drv.terminate_) ∧
      (r.Failed = false → r = Result.NoError ∧ drv1.handle_ ≠ none ∧
        drv1.terminate_ = false ∧ drv1.transferThread_ = true)) ∧
    (∀ t c f b, ∃ r drv1,
      Driver.Open bus (Driver.init t c f b) source = some (r, drv1, none)) := by
  have key : ∀ d : Driver, d.transferThread_ = false →
      ∃ r drv1, Driver.Open bus d source = some (r, drv1, d.source_) ∧
      drv1.source_ = source ∧
      (r.Failed = true ↔ (Driver._FindPushDisplayDeviceHandle bus d.handle_).1.Failed = true) ∧
      (r.Failed = true → drv1.transferThread_ = false ∧ drv1.terminate_ = d.terminate_) ∧
      (r.Failed = false → r = Result.NoError ∧ drv1.handle_ ≠ none ∧
        drv1.terminate_ = false ∧ drv1.transferThread_ = true) := by
    intro d hd
    have hh := find_handle bus d.handle_
    rcases hf : Driver._FindPushDisplayDeviceHandle bus d.handle_ with ⟨r, h⟩
    rw [hf] at hh
    cases r with
    | Error m =>
      refine ⟨Result.Error m, { d with source_ := source, handle_ := h }, ?_, rfl, ?_, ?_, ?_⟩
      · simp [Driver.Open, hf, RETURN_IF_FAILED, Result.Failed]
      · simp [Result.Failed]
      · intro _; exact ⟨hd, rfl⟩
      · intro hc; simp [Result.Failed] at hc
    | NoError =>
      have hne : h ≠ none := (hh rfl).2
      refine ⟨Result.NoError,
        { d with source_ := source, handle_ := h, terminate_ := false, transferThread_ := true },
        ?_, rfl, ?_, ?_, ?_⟩
      · simp [Driver.Open, hf, RETURN_IF_FAILED, Result.Failed, hne, hd]
      · simp [Result.Failed]
      · intro hc; simp [Result.Failed] at hc
      · intro _; exact ⟨rfl, hne, rfl, rfl⟩
  refine ⟨key drv hclosed, fun t c f b => ?_⟩
  obtain ⟨r, drv1, h, _⟩ := key (Driver.init t c f b) rfl
  exact ⟨r, drv1, h⟩

/-- C5 at a freshly constructed driver, the bus with a Push 2 display and the
zero-filled staging buffer. -/
theorem C5_Open_witness :
    freshDriver.transferThread_ = false ∧
    (∃ r drv1, Driver.Open exampleBus freshDriver (some Display.init)
        = some (r, drv1, freshDriver.source_) ∧
      drv1.source_ = some Display.init ∧
      (r.Failed = true ↔
        (Driver._FindPushDisplayDeviceHandle exampleBus freshDriver.handle_).1.Failed = true) ∧
      (r.Failed = true →
        drv1.transferThread_ = false ∧ drv1.terminate_ = freshDriver.terminate_) ∧
      (r.Failed = false → r = Result.NoError ∧ drv1.handle_ ≠ none ∧
        drv1.terminate_ = false ∧ drv1.transferThread_ = true)) ∧
    (∀ t c f b, ∃ r drv1,
      Driver.Open exampleBus (Driver.init t c f b) (some Display.init) = some (r, drv1, none)) :=
  ⟨rfl, C5_Open exampleBus freshDriver (some Display.init) rfl⟩

/-- C6: over every device list, discovery succeeds exactly when some device
qualifies (readable matching descriptor, can be opened, interface 0 can be
claimed); it then returns the handle of the first such device in list order,
so a single qualifying device among devices that do not match is claimed
whatever its position; when none qualifies it fails with the last recorded
error message, which is the message set before the scan, "display device not
found" and a newline, if no error was recorded. -/
theorem C6_discovery (bus : UsbBus) (devices : List libusb_device) (handle : Option Nat)
    (hinit : 0 ≤ bus.init_rc) (hlist : bus.device_list = some devices) :
    ((Driver._FindPushDisplayDeviceHandle bus handle).1 = Result.NoError ↔
      ∃ dev, dev ∈ devices ∧ dev.qualifies = true) ∧
    (∀ pre dev post, devices = pre ++ dev :: post →
      (∀ x, x ∈ pre → x.qualifies = false) → dev.qualifies = true →
      Driver._FindPushDisplayDeviceHandle bus handle = (Result.NoError, some dev.handle)) ∧
    (∀ pre dev post, devices = pre ++ dev :: post →
      (∀ x, x ∈ pre ++ post → x.isPush2 = false) → dev.qualifies = true →
      Driver._FindPushDisplayDeviceHandle bus handle = (Result.NoError, some dev.handle)) ∧
    ((∀ x, x ∈ devices → x.qualifies = false) →
      Driver._FindPushDisplayDeviceHandle bus handle =
        (Result.Error (lastErrorMessage devices), none)) ∧
    ((∀ x, x ∈ devices → x.error = none) →
      lastErrorMessage devices = "display device not found\n") := by
  have hfind := find_eq_scan bus devices handle hinit hlist
  have hfirst : ∀ pre dev post, devices = pre ++ dev :: post →
      (∀ x, x ∈ pre → x.qualifies = false) → dev.qualifies = true →
      Driver._FindPushDisplayDeviceHandle bus handle = (Result.NoError, some dev.handle) := by
    intro pre dev post he hp hq
    have h1 := scanDevices_first pre dev post "display device not found\n" hp hq
    rw [hfind, he]
    rcases hs : Driver.scanDevices (pre ++ dev :: post) "display device not found\n" with ⟨a, b⟩
    rw [hs] at h1
    simp only [] at h1
    subst h1
    rfl
  have hnone : (∀ x, x ∈ devices → x.qualifies = false) →
      Driver._FindPushDisplayDeviceHandle bus handle =
        (Result.Error (lastErrorMessage devices), none) := by
    intro h
    rw [hfind, scanDevices_none devices _ h]
    rfl
  refine ⟨⟨fun h => ?_, fun h => ?_⟩, hfirst, fun pre dev post he hp hq => ?_, hnone, fun h => ?_⟩
  · by_contra hno
    have hall : ∀ x, x ∈ devices → x.qualifies = false := by
      intro x hx
      by_contra hq
      exact hno ⟨x, hx, by simpa using hq⟩
    rw [hnone hall] at h
    exact Result.noConfusion h
  · obtain ⟨pre, dev, post, he, hp, hq⟩ := first_qualifying devices h
    rw [hfirst pre dev post he hp hq]
  · refine hfirst pre dev post he (fun x hx => ?_) hq
    have := hp x (List.mem_append_left _ hx)
    simp [libusb_device.qualifies, this]
  · have hf : devices.filterMap libusb_device.error = [] := by
      rw [List.filterMap_eq_nil_iff]
      exact h
    simp [lastErrorMessage, hf]

/-- C6 on a bus with one other device followed by a Push 2 display. -/
theorem C6_discovery_witness :
    (0 ≤ exampleBus.init_rc ∧ exampleBus.device_list = some [otherDevice, push2Device]) ∧
    ((Driver._FindPushDisplayDeviceHandle exampleBus none).1 = Result.NoError ↔
      ∃ dev, dev ∈ [otherDevice, push2Device] ∧ dev.qualifies = true) ∧
    (∀ pre dev post, [otherDevice, push2Device] = pre ++ dev :: post →
      (∀ x, x ∈ pre → x.qualifies = false) → dev.qualifies = true →
      Driver._FindPushDisplayDeviceHandle exampleBus none = (Result.NoError, some dev.handle)) ∧
    (∀ pre dev post, [otherDevice, push2Device] = pre ++ dev :: post →
      (∀ x, x ∈ pre ++ post → x.isPush2 = false) → dev.qualifies = true →
      Driver._FindPushDisplayDeviceHandle exampleBus none = (Result.NoError, some dev.handle)) ∧
    ((∀ x, x ∈ [otherDevice, push2Device] → x.qualifies = false) →
      Driver._FindPushDisplayDeviceHandle exampleBus none =
        (Result.Error (lastErrorMessage [otherDevice, push2Device]), none)) ∧
    ((∀ x, x ∈ [otherDevice, push2Device] → x.error = none) →
      lastErrorMessage [otherDevice, push2Device] = "display device not found\n") :=
  ⟨⟨by decide, rfl⟩, C6_discovery exampleBus [otherDevice, push2Device] none (by decide) rfl⟩

/-- C8: for every cursor `c` that is a multiple of 8 below 160,
`_TransferNextSlice` (when the header submission it may start with is
accepted) returns with the slot region of `sendBuffers_` holding exactly the
16384 bytes of the padded rows `c` to `c + 7` of the current staging buffer,
the pixels `1024 * c` up to `1024 * (c + 8) - 1`, and with the rest of
`sendBuffers_` as before; the byte offset `2048 * c` is a multiple of the line
size, the payload is a whole number of lines of four 512-byte chunks, and the
bytes read end inside the 1024 x 160 array. -/
theorem C8_slice_copy (usb : Usb) (drv : Driver) (w : World) (t : libusb_transfer) (off : Nat)
    (src : Display) (hdr : libusb_transfer) (c : Nat) (hr : drv.ready src hdr)
    (ht : t.isSlot off) (hcur : drv.currentLine_ = c) (hc8 : c % 8 = 0) (hc : c < 160)
    (hh : c = 0 → 0 ≤ usb.submit w.submits) :
    (∃ r drv1 w1, Driver._TransferNextSlice usb drv w (some t) = some (r, drv1, w1) ∧
      (drv1.sendBuffers_.drop off).take 16384 =
        pixelBytes ((src.source_.drop (1024 * c)).take (1024 * 8)) ∧
      ((drv1.sendBuffers_.drop off).take 16384).length = 16384 ∧
      drv1.sendBuffers_.length = drv.sendBuffers_.length ∧
      (∀ i, i < off ∨ off + 16384 ≤ i → drv1.sendBuffers_[i]? = drv.sendBuffers_[i]?)) ∧
    Driver.kLineSize * c % Driver.kLineSize = 0 ∧
    Driver.kSendBufferSize = 8 * Driver.kLineSize ∧ Driver.kLineSize = 4 * 512 ∧
    Driver.kSendBufferSize = 16384 ∧
    Driver.kLineSize * c + Driver.kSendBufferSize
      ≤ 2 * (Display.kDataSourceWidth * Display.kDataSourceHeight) := by
  subst hcur
  obtain ⟨hv, hsrc, hsv, hfh, hhd⟩ := hr
  have hv1 : drv.sendBuffers_.length = 49152 := hv
  have hsv1 : src.source_.length = 163840 := hsv
  have ht1 := ht
  obtain ⟨hb, hl, ho⟩ := ht1
  simp only [Driver.kSendBufferSize, Driver.kLineCountPerSendBuffer, Driver.kLineSize,
    Driver.kSendBufferCount] at hl ho
  obtain ⟨sb, hm, hlen, hget⟩ := copyLoop_spec src.byteAt 16384 (2048 * drv.currentLine_)
    drv.sendBuffers_ off
    (fun k hk => by
      have hb : (2048 * drv.currentLine_ + k) / 2 < src.source_.length := by omega
      simp only [Display.byteAt, Display.Data, List.getElem?_eq_getElem hb, Option.map_some',
        Option.isSome_some])
    (by omega)
  have hpay : (sb.drop off).take 16384 = src.lineBytes drv.currentLine_ 8 :=
    slot_payload src sb off drv.currentLine_ (fun i h1 h2 => by rw [hget i, if_pos ⟨h1, h2⟩])
  have hrest : ∀ i, i < off ∨ off + 16384 ≤ i → sb[i]? = drv.sendBuffers_[i]? :=
    fun i hi => by rw [hget i, if_neg (by omega)]
  have hplen : ((sb.drop off).take 16384).length = 16384 := by
    rw [List.length_take, List.length_drop]; omega
  refine ⟨?_, ?_, ?_, ?_, ?_, ?_⟩
  · have body : ∀ w0 : World, ∃ r drv1 w1,
        (match memcpy drv.sendBuffers_ off src.byteAt (Driver.kLineSize * drv.currentLine_)
            Driver.kSendBufferSize with
        | none => none
        | some sendBuffers =>
          match libusb_submit_transfer usb w0 sendBuffers (some t) with
          | none => none
          | some (rc, w2) =>
            if rc < 0 then some (Result.Error "could not submit display data transfer",
              { drv with sendBuffers_ := sendBuffers }, w2)
            else
              some (Result.NoError,
                { drv with sendBuffers_ := sendBuffers,
                           currentLine_ :=
                    if (drv.currentLine_ + Driver.kLineCountPerSendBuffer) % 256 ≥ 160 then 0
                    else (drv.currentLine_ + Driver.kLineCountPerSendBuffer) % 256 }, w2))
          = some (r, drv1, w1) ∧ drv1.sendBuffers_ = sb := by
      intro w0
      obtain ⟨rc, w2, hsub⟩ := submit_slot_some usb w0 sb t off ht (by omega)
      simp only [memcpy, Driver.kSendBufferSize, Driver.kLineCountPerSendBuffer,
        Driver.kLineSize, hm, hsub]
      split_ifs <;> exact ⟨_, _, _, rfl, rfl⟩
    have fin : ∀ drv1 : Driver, drv1.sendBuffers_ = sb →
        (drv1.sendBuffers_.drop off).take 16384 =
          pixelBytes ((src.source_.drop (1024 * drv.currentLine_)).take (1024 * 8)) ∧
        ((drv1.sendBuffers_.drop off).take 16384).length = 16384 ∧
        drv1.sendBuffers_.length = drv.sendBuffers_.length ∧
        (∀ i, i < off ∨ off + 16384 ≤ i → drv1.sendBuffers_[i]? = drv.sendBuffers_[i]?) := by
      intro drv1 h
      rw [h]
      exact ⟨hpay, hplen, hlen, hrest⟩
    by_cases h0 : drv.currentLine_ = 0
    · have hsub1 := submit_header usb w drv.sendBuffers_ hdr hhd (hh h0)
      have hn1 : ¬ usb.submit w.submits < 0 := by have := hh h0; omega
      obtain ⟨r, drv1, w1, e, hsb⟩ := body
        { w with submits := w.submits + 1, wire := w.wire ++ [headerSubmission hdr] }
      refine ⟨r, drv1, w1, ?_, fin drv1 hsb⟩
      rw [← e]
      simp only [Driver._TransferNextSlice, h0, if_true, hfh, hsub1, hn1, decide_False, hsrc, hb]
    · obtain ⟨r, drv1, w1, e, hsb⟩ := body w
      refine ⟨r, drv1, w1, ?_, fin drv1 hsb⟩
      rw [← e]
      simp only [Driver._TransferNextSlice, h0, if_false, hsrc, hb]
  · simp [Driver.kLineSize]
  · rfl
  · rfl
  · rfl
  · simp only [Driver.kLineSize, Driver.kSendBufferSize, Driver.kLineCountPerSendBuffer,
      Display.kDataSourceWidth, Display.kDataSourceHeight, Bitmap.kHeight]
    omega

/-- C8 at cursor 0 of `readyDriver`, through the transfer of slot 1. -/
theorem C8_slice_copy_witness :
    (readyDriver.ready Display.init (headerTransfer (some 7)) ∧
      (slotTransfer (some 7) 1).isSlot (1 * 16384) ∧ readyDriver.currentLine_ = 0 ∧
      0 % 8 = 0 ∧ 0 < 160 ∧ (0 = 0 → 0 ≤ usbOk.submit world0.submits)) ∧
    (∃ r drv1 w1, Driver._TransferNextSlice usbOk readyDriver world0
        (some (slotTransfer (some 7) 1)) = some (r, drv1, w1) ∧
      (drv1.sendBuffers_.drop (1 * 16384)).take 16384 =
        pixelBytes ((Display.init.source_.drop (1024 * 0)).take (1024 * 8)) ∧
      ((drv1.sendBuffers_.drop (1 * 16384)).take 16384).length = 16384 ∧
      drv1.sendBuffers_.length = readyDriver.sendBuffers_.length ∧
      (∀ i, i < 1 * 16384 ∨ 1 * 16384 + 16384 ≤ i →
        drv1.sendBuffers_[i]? = readyDriver.sendBuffers_[i]?)) ∧
    Driver.kLineSize * 0 % Driver.kLineSize = 0 ∧
    Driver.kSendBufferSize = 8 * Driver.kLineSize ∧ Driver.kLineSize = 4 * 512 ∧
    Driver.kSendBufferSize = 16384 ∧
    Driver.kLineSize * 0 + Driver.kSendBufferSize
      ≤ 2 * (Display.kDataSourceWidth * Display.kDataSourceHeight) :=
  ⟨⟨readyDriver_ready, slotTransfer_isSlot (some 7) 1 (by omega), rfl, rfl, by omega,
      fun _ => le_refl (0 : Int)⟩,
    C8_slice_copy usbOk readyDriver world0 (slotTransfer (some 7) 1) (1 * 16384) Display.init
      (headerTransfer (some 7)) 0 readyDriver_ready (slotTransfer_isSlot (some 7) 1 (by omega))
      rfl rfl (by omega) (fun _ => le_refl (0 : Int))⟩

/-- C9: starting from cursor 0 on a transport that accepts every submission,
`k` consecutive calls of `_TransferNextSlice` all return `NoError` and leave
the cursor at `8 * k % 160`, which is not 0 for `0 < k < 20` and is 0 again
for `k = 20`; the submissions are those of `sliceWire`: the header is
submitted in exactly the calls entered with cursor 0, which are the calls
whose number is a multiple of 20, the first call and each call after a wrap. -/
theorem C9_cursor_wrap (usb : Usb) (drv : Driver) (w : World) (src : Display)
    (hdr : libusb_transfer) (ts : List libusb_transfer) (hs : ∀ n, 0 ≤ usb.submit n)
    (hr : drv.ready src hdr) (h0 : drv.currentLine_ = 0)
    (hts : ∀ t, t ∈ ts → ∃ off, t.isSlot off) :
    ∃ drv1 w1, Driver.nextSlices usb ts drv w = some (Result.NoError, drv1, w1) ∧
      drv1.currentLine_ = 8 * ts.length % 160 ∧
      (0 < ts.length → ts.length < 20 → drv1.currentLine_ ≠ 0) ∧
      (ts.length = 20 → drv1.currentLine_ = 0) ∧
      w1.wire = w.wire ++ sliceWire hdr src 0 ts ∧
      (∀ j, 8 * j % 160 = 0 ↔ j % 20 = 0) := by
  obtain ⟨drv1, w1, e, _, hc, hw⟩ := nextSlices_spec usb hs src hdr ts 0 drv w hr
    (by rw [h0]) hts
  rw [Nat.zero_add] at hc
  refine ⟨drv1, w1, e, hc, fun h1 h2 => ?_, fun h => ?_, hw, fun j => ?_⟩
  · rw [hc]; omega
  · rw [hc, h]
  · omega

/-- C9 at 21 calls through the transfer of slot 0, on `readyDriver`. -/
theorem C9_cursor_wrap_witness :
    ((∀ n, 0 ≤ usbOk.submit n) ∧ readyDriver.ready Display.init (headerTransfer (some 7)) ∧
      readyDriver.currentLine_ = 0 ∧
      (∀ t, t ∈ List.replicate 21 (slotTransfer (some 7) 0) → ∃ off, t.isSlot off)) ∧
    ∃ drv1 w1, Driver.nextSlices usbOk (List.replicate 21 (slotTransfer (some 7) 0))
        readyDriver world0 = some (Result.NoError, drv1, w1) ∧
      drv1.currentLine_ = 8 * (List.replicate 21 (slotTransfer (some 7) 0)).length % 160 ∧
      (0 < (List.replicate 21 (slotTransfer (some 7) 0)).length →
        (List.replicate 21 (slotTransfer (some 7) 0)).length < 20 → drv1.currentLine_ ≠ 0) ∧
      ((List.replicate 21 (slotTransfer (some 7) 0)).length = 20 → drv1.currentLine_ = 0) ∧
      w1.wire = world0.wire ++ sliceWire (headerTransfer (some 7)) Display.init 0
        (List.replicate 21 (slotTransfer (some 7) 0)) ∧
      (∀ j, 8 * j % 160 = 0 ↔ j % 20 = 0) :=
  have hts : ∀ t, t ∈ List.replicate 21 (slotTransfer (some 7) 0) → ∃ off, t.isSlot off :=
    fun t ht => ⟨0 * 16384, by
      rw [List.eq_of_mem_replicate ht]; exact slotTransfer_isSlot (some 7) 0 (by omega)⟩
  ⟨⟨usbOk_reliable.2, readyDriver_ready, rfl, hts⟩,
    C9_cursor_wrap usbOk readyDriver world0 Display.init (headerTransfer (some 7))
      (List.replicate 21 (slotTransfer (some 7) 0)) usbOk_reliable.2 readyDriver_ready rfl hts⟩

/-- C10: on a reliable transport, `_TransferStart` on a driver that holds a
staging buffer returns `NoError` after four allocations and four submissions:
the 16-byte header `FF CC AA 88` and twelve zero bytes, then slot `i` with the
staging lines `8 * i` to `8 * i + 7` for `i = 0, 1, 2`; slot `i` is sent from
its own region of 16384 bytes at offset `16384 * i` of `sendBuffers_`, the
regions do not overlap and each still holds its slice at the end; the cursor
is left at 24. The completion callback, for every transfer and status, leaves
the driver as it is and submits nothing, and so does the handling of any list
of completions. -/
theorem C10_TransferStart (usb : Usb) (drv : Driver) (w : World) (src : Display)
    (hu : usb.reliable) (hv : drv.valid) (hsrc : drv.source_ = some src) (hsv : src.valid) :
    (∃ drv1 w1, Driver._TransferStart usb drv w = some (Result.NoError, drv1, w1) ∧
      drv1.currentLine_ = 24 ∧
      w1.allocs = w.allocs + 1 + Driver.kSendBufferCount ∧
      w1.submits = w.submits + 1 + Driver.kSendBufferCount ∧
      w1.wire = w.wire ++
        [⟨0x01, [0xFF, 0xCC, 0xAA, 0x88, 0, 0, 0, 0, 0, 0, 0, 0, 0, 0, 0, 0]⟩,
         ⟨0x01, src.lineBytes 0 8⟩, ⟨0x01, src.lineBytes 8 8⟩, ⟨0x01, src.lineBytes 16 8⟩] ∧
      drv1.sendBuffers_.length = 3 * 16384 ∧
      (∀ i, i < 3 →
        (drv1.sendBuffers_.drop (16384 * i)).take 16384 = src.lineBytes (8 * i) 8) ∧
      drv1.source_ = drv.source_ ∧
      (∀ t, (Driver._TransferFinished drv1 w1 t).1 = drv1 ∧
        (Driver._TransferFinished drv1 w1 t).2.wire = w1.wire ∧
        (Driver._TransferFinished drv1 w1 t).2.submits = w1.submits) ∧
      (∀ completed, (libusb_handle_events drv1 w1 completed).1 = drv1 ∧
        (libusb_handle_events drv1 w1 completed).2.wire = w1.wire ∧
        (libusb_handle_events drv1 w1 completed).2.submits = w1.submits)) ∧
    (∀ i, i < 3 →
      (slotTransfer drv.handle_ i).buffer = BufferPtr.sendBuffers (16384 * i) ∧
      (slotTransfer drv.handle_ i).length = 16384) ∧
    (∀ i j, i < j → j < 3 → 16384 * i + 16384 ≤ 16384 * j) := by
  obtain ⟨sb, e, hl, hreg⟩ := transferStart_spec usb drv w src hu hv hsrc hsv
  refine ⟨⟨_, _, e, rfl, rfl, rfl, rfl, hl, fun i hi => ?_, rfl, fun t => ?_, fun ts => ?_⟩,
    fun i _ => ⟨?_, rfl⟩, fun i j h1 h2 => by omega⟩
  · have := hreg i hi
    rwa [Nat.mul_comm] at this
  · obtain ⟨o, ho⟩ := transferFinished_spec
      { drv with currentLine_ := 24, sendBuffers_ := sb,
                 frameHeaderTransfer_ := some (headerTransfer drv.handle_) }
      { w with allocs := w.allocs + 4, submits := w.submits + 4,
               wire := w.wire ++ [headerSubmission (headerTransfer drv.handle_),
                 slotSubmission (slotTransfer drv.handle_ 0) src 0,
                 slotSubmission (slotTransfer drv.handle_ 1) src 8,
                 slotSubmission (slotTransfer drv.handle_ 2) src 16] } t
    rw [ho]
    exact ⟨rfl, rfl, rfl⟩
  · obtain ⟨o, ho⟩ := handle_events_spec ts
      { drv with currentLine_ := 24, sendBuffers_ := sb,
                 frameHeaderTransfer_ := some (headerTransfer drv.handle_) }
      { w with allocs := w.allocs + 4, submits := w.submits + 4,
               wire := w.wire ++ [headerSubmission (headerTransfer drv.handle_),
                 slotSubmission (slotTransfer drv.handle_ 0) src 0,
                 slotSubmission (slotTransfer drv.handle_ 1) src 8,
                 slotSubmission (slotTransfer drv.handle_ 2) src 16] }
    rw [ho]
    exact ⟨rfl, rfl, rfl⟩
  · show BufferPtr.sendBuffers (i * (8 * 2048)) = BufferPtr.sendBuffers (16384 * i)
    congr 1
    omega

/-- C10 at `openedDriver` on the transport `usbOk`. -/
theorem C10_TransferStart_witness :
    (usbOk.reliable ∧ openedDriver.valid ∧ openedDriver.source_ = some Display.init ∧
      Display.init.valid) ∧
    (∃ drv1 w1, Driver._TransferStart usbOk openedDriver world0
        = some (Result.NoError, drv1, w1) ∧
      drv1.currentLine_ = 24 ∧
      w1.allocs = world0.allocs + 1 + Driver.kSendBufferCount ∧
      w1.submits = world0.submits + 1 + Driver.kSendBufferCount ∧
      w1.wire = world0.wire ++
        [⟨0x01, [0xFF, 0xCC, 0xAA, 0x88, 0, 0, 0, 0, 0, 0, 0, 0, 0, 0, 0, 0]⟩,
         ⟨0x01, Display.init.lineBytes 0 8⟩, ⟨0x01, Display.init.lineBytes 8 8⟩,
         ⟨0x01, Display.init.lineBytes 16 8⟩] ∧
      drv1.sendBuffers_.length = 3 * 16384 ∧
      (∀ i, i < 3 →
        (drv1.sendBuffers_.drop (16384 * i)).take 16384 = Display.init.lineBytes (8 * i) 8) ∧
      drv1.source_ = openedDriver.source_ ∧
      (∀ t, (Driver._TransferFinished drv1 w1 t).1 = drv1 ∧
        (Driver._TransferFinished drv1 w1 t).2.wire = w1.wire ∧
        (Driver._TransferFinished drv1 w1 t).2.submits = w1.submits) ∧
      (∀ completed, (libusb_handle_events drv1 w1 completed).1 = drv1 ∧
        (libusb_handle_events drv1 w1 completed).2.wire = w1.wire ∧
        (libusb_handle_events drv1 w1 completed).2.submits = w1.submits)) ∧
    (∀ i, i < 3 →
      (slotTransfer openedDriver.handle_ i).buffer = BufferPtr.sendBuffers (16384 * i) ∧
      (slotTransfer openedDriver.handle_ i).length = 16384) ∧
    (∀ i j, i < j → j < 3 → 16384 * i + 16384 ≤ 16384 * j) :=
  ⟨⟨usbOk_reliable, openedDriver_valid, rfl, Display_init_valid⟩,
    C10_TransferStart usbOk openedDriver world0 Display.init usbOk_reliable openedDriver_valid
      rfl Display_init_valid⟩

/-- C11: the cursor invariant, `0 <= cursor < 160` and `cursor mod 8 = 0`,
holds after `_TransferStart`, whatever the submissions answer, and every
operation that can follow keeps it: `_TransferNextSlice`, which leaves the
cursor unchanged when it fails and advances it by 8 modulo 160 when it
succeeds, the sum `cursor + 8` never exceeding the range of the 8-bit cursor;
`Swap`; and the completion callback. -/
theorem C11_cursor_invariant (usb : Usb) (drv : Driver) (w : World) (src : Display)
    (ha : ∀ n, usb.alloc n = true) (hv : drv.valid) (hsrc : drv.source_ = some src)
    (hsv : src.valid) :
    (∃ r drv1 w1, Driver._TransferStart usb drv w = some (r, drv1, w1) ∧ drv1.cursorOk) ∧
    (∀ (d : Driver) (w0 : World) (hdr t : libusb_transfer) (off : Nat),
      d.ready src hdr → t.isSlot off → d.cursorOk →
      ∃ r d1 w1, Driver._TransferNextSlice usb d w0 (some t) = some (r, d1, w1) ∧
        d1.cursorOk ∧
        (r.Failed = true → d1.currentLine_ = d.currentLine_) ∧
        (r.Failed = false → d1.currentLine_ = (d.currentLine_ + 8) % 160) ∧
        (d.currentLine_ + Driver.kLineCountPerSendBuffer) % 256
          = d.currentLine_ + Driver.kLineCountPerSendBuffer) ∧
    (∀ (d : Driver) (source : Option Display), d.cursorOk →
      (Driver.Swap d source).1.cursorOk ∧
      (Driver.Swap d source).1.currentLine_ = d.currentLine_) ∧
    (∀ (d : Driver) (w0 : World) (t : libusb_transfer), d.cursorOk →
      (Driver._TransferFinished d w0 t).1.cursorOk ∧
      (Driver._TransferFinished d w0 t).1.currentLine_ = d.currentLine_) := by
  refine ⟨?_, fun d w0 hdr t off hr ht hc => ?_, fun d source hc => ⟨hc, rfl⟩,
    fun d w0 t hc => ?_⟩
  · obtain ⟨r, drv1, w1, e, h8, hlt⟩ := transferStartLoop_total usb ha src
      (headerTransfer drv.handle_) 3 0
      { drv with currentLine_ := 0, frameHeaderTransfer_ := some (headerTransfer drv.handle_) }
      { w with allocs := w.allocs + 1 } rfl ⟨hv, hsrc, hsv, rfl, rfl, rfl⟩ rfl
      (by show 0 < 160; omega)
    refine ⟨r, drv1, w1, ?_, hlt, h8⟩
    simp only [Driver._TransferStart, Driver._AllocateAndPrepareTransferChunk, ha, if_true]
    simp only [headerTransfer, frameHeader, List.length] at e ⊢
    exact e
  · obtain ⟨hlt, h8⟩ := hc
    simp only [Driver.kLineCountPerSendBuffer] at h8
    obtain ⟨r, sb, w1, e, _⟩ := nextSlice_total usb d w0 t off src hdr hr ht h8 hlt
    refine ⟨r, _, w1, e, ?_, fun hf => ?_, fun hf => ?_, ?_⟩
    · simp only [Driver.cursorOk, Driver.kLineCountPerSendBuffer]
      cases r <;> simp only [Result.Failed, if_true, Bool.false_eq_true, if_false] <;> omega
    · simp only [hf, if_true]
    · simp only [hf, Bool.false_eq_true, if_false]
    · simp only [Driver.kLineCountPerSendBuffer]
      omega
  · obtain ⟨o, ho⟩ := transferFinished_spec d w0 t
    rw [ho]
    exact ⟨hc, rfl⟩

/-- C11 at `openedDriver` on the transport `usbFlaky`, which rejects the
second slot submission. -/
theorem C11_cursor_invariant_witness :
    ((∀ n, usbFlaky.alloc n = true) ∧ openedDriver.valid ∧
      openedDriver.source_ = some Display.init ∧ Display.init.valid) ∧
    (∃ r drv1 w1, Driver._TransferStart usbFlaky openedDriver world0 = some (r, drv1, w1) ∧
      drv1.cursorOk) ∧
    (∀ (d : Driver) (w0 : World) (hdr t : libusb_transfer) (off : Nat),
      d.ready Display.init hdr → t.isSlot off → d.cursorOk →
      ∃ r d1 w1, Driver._TransferNextSlice usbFlaky d w0 (some t) = some (r, d1, w1) ∧
        d1.cursorOk ∧
        (r.Failed = true → d1.currentLine_ = d.currentLine_) ∧
        (r.Failed = false → d1.currentLine_ = (d.currentLine_ + 8) % 160) ∧
        (d.currentLine_ + Driver.kLineCountPerSendBuffer) % 256
          = d.currentLine_ + Driver.kLineCountPerSendBuffer) ∧
    (∀ (d : Driver) (source : Option Display), d.cursorOk →
      (Driver.Swap d source).1.cursorOk ∧
      (Driver.Swap d source).1.currentLine_ = d.currentLine_) ∧
    (∀ (d : Driver) (w0 : World) (t : libusb_transfer), d.cursorOk →
      (Driver._TransferFinished d w0 t).1.cursorOk ∧
      (Driver._TransferFinished d w0 t).1.currentLine_ = d.currentLine_) :=
  ⟨⟨fun _ => rfl, openedDriver_valid, rfl, Display_init_valid⟩,
    C11_cursor_invariant usbFlaky openedDriver world0 Display.init (fun _ => rfl)
      openedDriver_valid rfl Display_init_valid⟩

end p2d
